import Mathlib

/-!
Customers: account OFAC screening and the account repository

A shallow embedding of `cmd/server/accounts/accounts_ofac.go` (the sanctions
screener `AccountOfacSearcher.StoreAccountOFACSearch`) together with the
collaborators it talks to, followed by the properties of the specification
stated over that embedding.

Conventions of the embedding:

* a `time.Time` is an `Int` (nanoseconds), a `time.Duration` likewise;
* a Go pointer that may be nil is an `Option`;
* a Go `error` is an `Option GoError`, `none` being the nil error;
* a `float32` is carried as its IEEE-754 bit pattern, since the code only copies it;
* the outside world (watchlist service, storage, clock) is a state of type `σ`
  threaded through every call of a collaborator, and each run reports the
  collaborator calls it made, in order.
-/

namespace Customers

/-! ## Time and contexts -/

/-- An instant (`time.Time`), in nanoseconds. -/
abbrev Time := Int

/-- A span of time (`time.Duration`), in nanoseconds. -/
abbrev Duration := Int

/-- The constant `time.Second`. -/
def Second : Duration := 1000000000

/-- The contexts this package builds: `context.TODO()` and contexts derived from a
parent with a deadline. -/
inductive Context where
  | TODO : Context
  | WithDeadline (parent : Context) (d : Time) : Context
deriving DecidableEq, Repr

/-- The parent a context was derived from, if it was derived. -/
def Context.parent : Context → Option Context
  | .TODO => none
  | .WithDeadline p _ => some p

/-- The method `Deadline()`: `context.TODO()` has none; a derived context has the earlier
of its own deadline and its parent's. -/
def Context.Deadline : Context → Option Time
  | .TODO => none
  | .WithDeadline p d =>
    match p.Deadline with
    | some cur => if cur < d then some cur else some d
    | none => some d

/-- The call `context.WithTimeout(parent, timeout)`, made when the clock reads `now`:
it is `WithDeadline(parent, time.Now().Add(timeout))`. -/
def WithTimeout (parent : Context) (timeout : Duration) (now : Time) : Context :=
  Context.WithDeadline parent (now + timeout)

/-! ## Errors -/

/-- A Go error value as a caller can observe it: its dynamic type and the text its
`Error()` method returns. -/
structure GoError where
  dynType : String
  Error : String
deriving DecidableEq, Repr

/-- The function `errors.New` of `github.com/pkg/errors`. -/
def errorsNew (message : String) : GoError :=
  { dynType := "*errors.fundamental", Error := message }

/-- The function `fmt.Errorf` for a format without the wrapping verb, applied to the
already formatted text: the result holds that text and nothing else. -/
def fmtErrorf (formatted : String) : GoError :=
  { dynType := "*errors.errorString", Error := formatted }

/-! ## Data model of the screener -/

/-- The type `client.Account` as far as this package reads it. Its declaration is not
among the sources; `rest` stands for every field other than the two read here. -/
structure Account (ρ : Type) where
  AccountID : String
  HolderName : String
  rest : ρ

/-- The type `watchman.OfacSdn` as far as this package reads it. -/
structure OfacSdn where
  EntityID : String
  SdnName : String
  SdnType : String
  Match : Nat
deriving DecidableEq, Repr

/-- The struct `ofacSearchResult`. -/
structure ofacSearchResult where
  EntityID : String
  SDNName : String
  SDNType : String
  Match : Nat
  CreatedAt : Time
deriving DecidableEq, Repr

/-- The interface `WatchmanClient`. -/
structure WatchmanClient (σ : Type) where
  Ping : σ → Option GoError × σ
  Search : Context → String → String → σ → (Option OfacSdn × Option GoError) × σ

/-- The interface `Repository`, as far as the screener uses it. -/
structure Repository (σ : Type) where
  SaveAccountOFACSearch : String → ofacSearchResult → σ → Option GoError × σ

/-- The struct `AccountOfacSearcher`. -/
structure AccountOfacSearcher (σ : Type) where
  Repo : Repository σ
  WatchmanClient : WatchmanClient σ

/-- A call made to a collaborator, with its arguments. -/
inductive Call where
  | Search (ctx : Context) (name : String) (requestID : String) : Call
  | SaveAccountOFACSearch (accountID : String) (result : ofacSearchResult) : Call
deriving DecidableEq, Repr

/-- Whether a call is a call of `WatchmanClient.Search`. -/
def Call.isSearch : Call → Bool
  | .Search _ _ _ => true
  | .SaveAccountOFACSearch _ _ => false

/-- Whether a call is a call of `Repo.SaveAccountOFACSearch`. -/
def Call.isSave : Call → Bool
  | .Search _ _ _ => false
  | .SaveAccountOFACSearch _ _ => true

/-- How a run of the method ends: it returns an error value (possibly nil), or it reads
a field through a nil pointer and the runtime stops it. -/
inductive Outcome where
  | returned (err : Option GoError) : Outcome
  | nilDereference : Outcome
deriving DecidableEq, Repr

/-- A finished run: how it ended, the collaborator calls it made in order, and the
state of the world it left. -/
structure Run (σ : Type) where
  outcome : Outcome
  calls : List Call
  world : σ

/-- The calls of `WatchmanClient.Search` among the calls of a run. -/
def Run.searches {σ : Type} (r : Run σ) : List Call :=
  r.calls.filter Call.isSearch

/-- The calls of `Repo.SaveAccountOFACSearch` among the calls of a run. -/
def Run.saves {σ : Type} (r : Run σ) : List Call :=
  r.calls.filter Call.isSave

/-- The text of the error returned when the name search fails. -/
def searchFailedText (accountID : String) (err : GoError) : String :=
  "AccountOfacSearcher.StoreAccountOFACSearch: name search for account=" ++ accountID ++ ": " ++ err.Error

/-- The text of the error returned when saving the result fails. -/
def saveFailedText (accountID : String) (err : GoError) : String :=
  "AccountOfacSearcher.StoreAccountOFACSearch: SaveAccountOFACSearch account=" ++ accountID ++ ": " ++ err.Error

/-- The method `(*AccountOfacSearcher).StoreAccountOFACSearch`, for a receiver that is
not nil and whose two collaborators are not nil (`StoreAccountOFACSearchNilable` below
lifts that restriction). The clock `time.Now` is
the reading `timeNow` of the current world: it is read once when the timeout context is
built and once, after the search has returned, for `CreatedAt`. The fields of `sdn` are
read before the clock and before the save, so a nil `sdn` stops the run there. The
deferred `cancelFn` releases the context on return and is not observable here. -/
def StoreAccountOFACSearch {σ ρ : Type} (s : AccountOfacSearcher σ) (timeNow : σ → Time)
    (account : Option (Account ρ)) (requestID : String) (w : σ) : Run σ :=
  let ctx := WithTimeout Context.TODO (10 * Second) (timeNow w)
  match account with
  | none => { outcome := .returned (some (errorsNew "nil account")), calls := [], world := w }
  | some acct =>
    if acct.HolderName = "" then
      { outcome := .returned (some (errorsNew "no account HolderName to perform check with")),
        calls := [], world := w }
    else
      match s.WatchmanClient.Search ctx acct.HolderName requestID w with
      | ((_, some err), w1) =>
        { outcome := .returned (some (fmtErrorf (searchFailedText acct.AccountID err))),
          calls := [Call.Search ctx acct.HolderName requestID], world := w1 }
      | ((none, none), w1) =>
        { outcome := .nilDereference,
          calls := [Call.Search ctx acct.HolderName requestID], world := w1 }
      | ((some sdn, none), w1) =>
        let result : ofacSearchResult :=
          { EntityID := sdn.EntityID, SDNName := sdn.SdnName, SDNType := sdn.SdnType,
            Match := sdn.Match, CreatedAt := timeNow w1 }
        match s.Repo.SaveAccountOFACSearch acct.AccountID result w1 with
        | (some err, w2) =>
          { outcome := .returned (some (fmtErrorf (saveFailedText acct.AccountID err))),
            calls := [Call.Search ctx acct.HolderName requestID,
                      Call.SaveAccountOFACSearch acct.AccountID result],
            world := w2 }
        | (none, w2) =>
          { outcome := .returned none,
            calls := [Call.Search ctx acct.HolderName requestID,
                      Call.SaveAccountOFACSearch acct.AccountID result],
            world := w2 }

/-- The struct `AccountOfacSearcher` as Go stores it: each of its two fields is an
interface value and may hold nil. -/
structure AccountOfacSearcherNilable (σ : Type) where
  Repo : Option (Repository σ)
  WatchmanClient : Option (WatchmanClient σ)

/-- The method `(*AccountOfacSearcher).StoreAccountOFACSearch` called through a receiver
that may be nil and whose fields may hold nil. The two guards on `account` run before
the receiver is touched. `s.WatchmanClient.Search` reads the receiver and calls through
the interface: a nil receiver or a nil `WatchmanClient` stops the run there.
`s.Repo.SaveAccountOFACSearch` is reached only when the search returned a nil error; a
nil `sdn` or a nil `Repo` stops the run there, before any save. -/
def StoreAccountOFACSearchNilable {σ ρ : Type} (s : Option (AccountOfacSearcherNilable σ))
    (timeNow : σ → Time) (account : Option (Account ρ)) (requestID : String) (w : σ) : Run σ :=
  let ctx := WithTimeout Context.TODO (10 * Second) (timeNow w)
  match account with
  | none => { outcome := .returned (some (errorsNew "nil account")), calls := [], world := w }
  | some acct =>
    if acct.HolderName = "" then
      { outcome := .returned (some (errorsNew "no account HolderName to perform check with")),
        calls := [], world := w }
    else
      match s with
      | none => { outcome := .nilDereference, calls := [], world := w }
      | some fields =>
        match fields.WatchmanClient with
        | none => { outcome := .nilDereference, calls := [], world := w }
        | some client =>
          match client.Search ctx acct.HolderName requestID w with
          | ((_, some err), w1) =>
            { outcome := .returned (some (fmtErrorf (searchFailedText acct.AccountID err))),
              calls := [Call.Search ctx acct.HolderName requestID], world := w1 }
          | ((none, none), w1) =>
            { outcome := .nilDereference,
              calls := [Call.Search ctx acct.HolderName requestID], world := w1 }
          | ((some sdn, none), w1) =>
            match fields.Repo with
            | none =>
              { outcome := .nilDereference,
                calls := [Call.Search ctx acct.HolderName requestID], world := w1 }
            | some repo =>
              let result : ofacSearchResult :=
                { EntityID := sdn.EntityID, SDNName := sdn.SdnName, SDNType := sdn.SdnType,
                  Match := sdn.Match, CreatedAt := timeNow w1 }
              match repo.SaveAccountOFACSearch acct.AccountID result w1 with
              | (some err, w2) =>
                { outcome := .returned (some (fmtErrorf (saveFailedText acct.AccountID err))),
                  calls := [Call.Search ctx acct.HolderName requestID,
                            Call.SaveAccountOFACSearch acct.AccountID result],
                  world := w2 }
              | (none, w2) =>
                { outcome := .returned none,
                  calls := [Call.Search ctx acct.HolderName requestID,
                            Call.SaveAccountOFACSearch acct.AccountID result],
                  world := w2 }

/-! ## The account repository

The repository implementation (`sqlAccountRepository`) is not among the sources; only
its test file is. The definitions of this section follow sections 3 and 4.1 of the
specification. External capabilities (secret keeper, fingerprint hash) are parameters,
and the identifier and clock reading drawn by a call are arguments of that call. -/

/-- Modelled from the spec: the account type enumeration of section 3 (the declaration
of `client.AccountType` is missing). -/
inductive AccountType where
  | Checking : AccountType
  | Savings : AccountType
deriving DecidableEq, Repr

/-- Modelled from the spec: the status enumeration of section 3 (the declaration of
`client.AccountStatus` is missing). -/
inductive AccountStatus where
  | None : AccountStatus
  | Validated : AccountStatus
  | Rejected : AccountStatus
deriving DecidableEq, Repr

/-- Modelled from the spec: the error taxonomy of section 7 (the error values of the
missing repository implementation). -/
inductive RepoError where
  | ValidationError : RepoError
  | DuplicateError : RepoError
  | NotFound : RepoError
  | InvalidTransitionError : RepoError
  | EncryptionError : RepoError
  | DecryptionError : RepoError
  | StorageError : RepoError
deriving DecidableEq, Repr

/-- The name of each kind of repository error. -/
def RepoError.name : RepoError → String
  | .ValidationError => "ValidationError"
  | .DuplicateError => "DuplicateError"
  | .NotFound => "NotFound"
  | .InvalidTransitionError => "InvalidTransitionError"
  | .EncryptionError => "EncryptionError"
  | .DecryptionError => "DecryptionError"
  | .StorageError => "StorageError"

deriving instance DecidableEq for Except

/-- A repository error as the Go error value handed to callers. -/
def RepoError.toGoError (e : RepoError) : GoError :=
  { dynType := e.name, Error := e.name }

/-- Modelled from the spec: the Secret Keeper capability of section 6 (package
`secrets` is missing); `none` is a failure of the keeper. -/
structure SecretKeeper where
  encrypt : String → Option String
  decrypt : String → Option String

/-- Modelled from the spec: the capabilities the missing repository implementation is
given, section 3 and section 6: the secret keeper and the deterministic keyed hash of
plaintext account number and routing number. -/
structure RepoEnv where
  keeper : SecretKeeper
  fingerprint : String → String → String

/-- The struct `createAccountRequest`, with the fields the test file sets; `Type_` is its
field `Type`. -/
structure createAccountRequest where
  AccountNumber : String
  RoutingNumber : String
  Type_ : AccountType
deriving DecidableEq, Repr

/-- Modelled from the spec: a stored account record, section 3 (the table of the missing
repository implementation). -/
structure AccountRow where
  AccountID : String
  CustomerID : String
  UserID : String
  EncryptedAccountNumber : String
  Fingerprint : String
  MaskedAccountNumber : String
  RoutingNumber : String
  Type_ : AccountType
  Status : AccountStatus
  CreatedAt : Time
  DeactivatedAt : Option Time
deriving DecidableEq, Repr

/-- Modelled from the spec: a stored search result, section 3 (the table of the missing
repository implementation), keyed to the account it was saved for. -/
structure SearchRow where
  AccountID : String
  result : ofacSearchResult
deriving DecidableEq, Repr

/-- Modelled from the spec: the storage behind the repository (missing from the
sources): account rows and search-result rows in insertion order, and whether the
storage layer currently answers. -/
structure Store where
  accounts : List AccountRow
  searches : List SearchRow
  available : Bool
deriving DecidableEq, Repr

/-- The store of a freshly migrated database. -/
def Store.empty : Store :=
  { accounts := [], searches := [], available := true }

/-- The value of a decimal digit. -/
def digitValue (c : Char) : Option Nat :=
  if c.isDigit then some (c.toNat - 48) else none

/-- Modelled from the spec: routing-number validation of section 3 (missing from the
sources): nine decimal digits whose standard checksum
`3(d1+d4+d7) + 7(d2+d5+d8) + (d3+d6+d9)` is a multiple of ten. -/
def validRoutingNumber (routing : String) : Bool :=
  match routing.data.map digitValue with
  | [some d1, some d2, some d3, some d4, some d5, some d6, some d7, some d8, some d9] =>
    (3 * (d1 + d4 + d7) + 7 * (d2 + d5 + d8) + (d3 + d6 + d9)) % 10 == 0
  | _ => false

/-- Modelled from the spec: the masked display value of section 3 (missing from the
sources): the last four characters are kept, every earlier one is starred. -/
def maskAccountNumber (number : String) : String :=
  String.mk (List.replicate (number.data.length - 4) '*' ++ number.data.drop (number.data.length - 4))

/-- Whether a row is active, that is, not deactivated. -/
def AccountRow.active (r : AccountRow) : Bool :=
  r.DeactivatedAt.isNone

/-- Modelled from the spec: `createAccount` of section 4.1 (the test file calls it
`createCustomerAccount`; its body is missing). `newID` is the identifier drawn for the
account and `now` the clock reading of the call. -/
def createCustomerAccount (env : RepoEnv) (customerID userID : String) (req : createAccountRequest)
    (newID : String) (now : Time) (st : Store) : Except RepoError AccountRow × Store :=
  if customerID = "" ∨ userID = "" then (.error .ValidationError, st)
  else if validRoutingNumber req.RoutingNumber = false then (.error .ValidationError, st)
  else
    let fp := env.fingerprint req.AccountNumber req.RoutingNumber
    match env.keeper.encrypt req.AccountNumber with
    | none => (.error .EncryptionError, st)
    | some encrypted =>
      if st.available = false then (.error .StorageError, st)
      else if st.accounts.any (fun r => r.active && r.CustomerID == customerID && r.Fingerprint == fp) then
        (.error .DuplicateError, st)
      else
        let row : AccountRow :=
          { AccountID := newID, CustomerID := customerID, UserID := userID,
            EncryptedAccountNumber := encrypted, Fingerprint := fp,
            MaskedAccountNumber := maskAccountNumber req.AccountNumber,
            RoutingNumber := req.RoutingNumber, Type_ := req.Type_,
            Status := .None, CreatedAt := now, DeactivatedAt := none }
        (.ok row, { st with accounts := st.accounts ++ [row] })

/-- Modelled from the spec: `getAccount` of section 4.1 (`getCustomerAccount` in the test
file; body missing): the active account of that customer with that identifier. -/
def getCustomerAccount (customerID accountID : String) (st : Store) : Except RepoError AccountRow :=
  if st.available = false then .error .StorageError
  else
    match st.accounts.find? (fun r => r.active && r.CustomerID == customerID && r.AccountID == accountID) with
    | some r => .ok r
    | none => .error .NotFound

/-- Modelled from the spec: `listAccounts` of section 4.1 (`getCustomerAccounts` in the
test file; body missing): the active accounts of the customer by ascending creation time. -/
def getCustomerAccounts (customerID : String) (st : Store) : Except RepoError (List AccountRow) :=
  if st.available = false then .error .StorageError
  else
    .ok ((st.accounts.filter (fun r => r.active && r.CustomerID == customerID)).insertionSort
      (fun a b => a.CreatedAt ≤ b.CreatedAt))

/-- Modelled from the spec: the read of the stored ciphertext that the test file calls
`getEncryptedAccountNumber` (body missing). -/
def getEncryptedAccountNumber (customerID accountID : String) (st : Store) : Except RepoError String :=
  match getCustomerAccount customerID accountID st with
  | .ok r => .ok r.EncryptedAccountNumber
  | .error e => .error e

/-- Modelled from the spec: `getDecryptedAccountNumber` of section 4.1 (body missing). -/
def getDecryptedAccountNumber (env : RepoEnv) (customerID accountID : String) (st : Store) :
    Except RepoError String :=
  match getEncryptedAccountNumber customerID accountID st with
  | .ok encrypted =>
    match env.keeper.decrypt encrypted with
    | some number => .ok number
    | none => .error .DecryptionError
  | .error e => .error e

/-- Modelled from the spec: the legal transitions of the status state machine of
section 4.1: from `None` to `Validated` and from `None` to `Rejected`. -/
def legalTransition : AccountStatus → AccountStatus → Bool
  | .None, .Validated => true
  | .None, .Rejected => true
  | _, _ => false

/-- Modelled from the spec: `updateAccountStatus` of section 4.1 (body missing). -/
def updateAccountStatus (accountID : String) (newStatus : AccountStatus) (st : Store) :
    Option RepoError × Store :=
  if st.available = false then (some .StorageError, st)
  else
    match st.accounts.find? (fun r => r.active && r.AccountID == accountID) with
    | none => (some .NotFound, st)
    | some r =>
      if legalTransition r.Status newStatus then
        (none, { st with accounts := st.accounts.map (fun x =>
          if x.active && x.AccountID == accountID then { x with Status := newStatus } else x) })
      else (some .InvalidTransitionError, st)

/-- Modelled from the spec: `deactivateAccount` of section 4.1 (`deactivateCustomerAccount`
in the test file; body missing): a soft delete at clock reading `now`, and a successful
no-op on an account that is already deactivated. -/
def deactivateCustomerAccount (accountID : String) (now : Time) (st : Store) : Option RepoError × Store :=
  if st.available = false then (some .StorageError, st)
  else if st.accounts.any (fun r => r.AccountID == accountID) then
    (none, { st with accounts := st.accounts.map (fun x =>
      if x.active && x.AccountID == accountID then { x with DeactivatedAt := some now } else x) })
  else (some .NotFound, st)

/-- Modelled from the spec: the append of a search result of section 4.2
(`Repo.SaveAccountOFACSearch`; body missing): one new row, or a storage error and no
visible row. -/
def SaveAccountOFACSearch (accountID : String) (result : ofacSearchResult) (st : Store) :
    Option RepoError × Store :=
  if st.available = false then (some .StorageError, st)
  else (none, { st with searches := st.searches ++ [{ AccountID := accountID, result := result }] })

/-- Modelled from the spec: the read of the search results stored for an account,
section 3 (missing from the sources), oldest insertion first. -/
def getAccountOFACSearches (accountID : String) (st : Store) : List ofacSearchResult :=
  (st.searches.filter (fun row => row.AccountID == accountID)).map SearchRow.result

/-- The later of a candidate and the next result, by `CreatedAt`; of two results with
the same `CreatedAt` the one inserted later. -/
def laterResult (best : Option ofacSearchResult) (r : ofacSearchResult) : Option ofacSearchResult :=
  match best with
  | none => some r
  | some b => if b.CreatedAt ≤ r.CreatedAt then some r else some b

/-- Modelled from the spec: the authoritative result of an account, section 3: the most
recent of its stored results by `CreatedAt`. -/
def getLatestAccountOFACSearch (accountID : String) (st : Store) : Option ofacSearchResult :=
  (getAccountOFACSearches accountID st).foldl laterResult none

/-- The world of a running server: the clock, the storage of the repository and the
state of the watchlist service. -/
structure World (ω : Type) where
  clock : Time
  store : Store
  watchman : ω

/-- The repository of the spec as the `Repository` the screener is given. -/
def storeRepository (ω : Type) : Repository (World ω) :=
  { SaveAccountOFACSearch := fun accountID result w =>
      match SaveAccountOFACSearch accountID result w.store with
      | (none, st) => (none, { w with store := st })
      | (some e, st) => (some e.toGoError, { w with store := st }) }

/-! ## A small concrete world, used to run the definitions -/

/-- A world that only counts time: the state is the clock reading. -/
def tickClock : Nat → Time := fun n => (n : Int)

/-- A watchlist client that answers every search with one fixed match and takes one
tick of time to do so. -/
def hitClient : WatchmanClient Nat :=
  { Ping := fun w => (none, w)
    Search := fun _ _ _ w =>
      ((some { EntityID := "306", SdnName := "BANCO NACIONAL DE CUBA", SdnType := "entity", Match := 1065353216 }, none), w + 1) }

/-- The error value `context.DeadlineExceeded`. -/
def deadlineExceeded : GoError :=
  { dynType := "context.deadlineExceededError", Error := "context deadline exceeded" }

/-- A watchlist client whose searches all fail with the given error. -/
def failingClient (cause : GoError) : WatchmanClient Nat :=
  { Ping := fun w => (none, w)
    Search := fun _ _ _ w => ((none, some cause), w + 1) }

/-- A watchlist client whose searches all time out. -/
def downClient : WatchmanClient Nat :=
  failingClient deadlineExceeded

/-- A repository that accepts every save. -/
def okRepo : Repository Nat :=
  { SaveAccountOFACSearch := fun _ _ w => (none, w) }

/-- A repository that rejects every save. -/
def brokenRepo : Repository Nat :=
  { SaveAccountOFACSearch := fun _ _ w => (some { dynType := "*errors.errorString", Error := "database is locked" }, w) }

/-- An account with a holder name. -/
def janeAccount : Account String :=
  { AccountID := "acct-1", HolderName := "Jane Doe", rest := "" }

/-- An account without a holder name. -/
def namelessAccount : Account String :=
  { AccountID := "acct-2", HolderName := "", rest := "" }

/-- A different error value with the same text as `context.DeadlineExceeded`. -/
def sameTextError : GoError :=
  { dynType := "*errors.errorString", Error := "context deadline exceeded" }

/-- The context of a caller that works under a deadline one second after clock
reading 5. -/
def callerContext : Context :=
  WithTimeout Context.TODO (1 * Second) 5

/-- A watchlist client in the world of a running server: every search finds the same
match, takes one nanosecond of the clock and leaves the storage alone. -/
def steadyClient : WatchmanClient (World Unit) :=
  { Ping := fun w => (none, w)
    Search := fun _ _ _ w =>
      ((some { EntityID := "306", SdnName := "BANCO NACIONAL DE CUBA", SdnType := "entity", Match := 1065353216 }, none),
       { w with clock := w.clock + 1 }) }

/-- A server world at clock reading 5 with an empty, available store. -/
def freshWorld : World Unit :=
  { clock := 5, store := Store.empty, watchman := () }

/-- A first screening of `janeAccount` in the fresh world. -/
def firstRun : Run (World Unit) :=
  StoreAccountOFACSearch ⟨storeRepository Unit, steadyClient⟩ World.clock (some janeAccount) "req-1" freshWorld

/-- A second screening of `janeAccount`, in the world the first one left. -/
def secondRun : Run (World Unit) :=
  StoreAccountOFACSearch ⟨storeRepository Unit, steadyClient⟩ World.clock (some janeAccount) "req-2"
    firstRun.world

/-- A keeper for tests: encryption puts a marker in front of the text and decryption
takes the first four characters off. -/
def testKeeper : SecretKeeper :=
  { encrypt := fun text => some ("enc:" ++ text)
    decrypt := fun text => some (String.mk (text.data.drop 4)) }

/-- The capabilities used in tests: the test keeper, and a fingerprint that joins the
account number and the routing number. -/
def testEnv : RepoEnv :=
  { keeper := testKeeper, fingerprint := fun number routing => number ++ "|" ++ routing }

/-- A watchlist client that finds nothing: every search returns a nil result together
with a nil error. -/
def noMatchClient : WatchmanClient Nat :=
  { Ping := fun w => (none, w)
    Search := fun _ _ _ w => ((none, none), w + 1) }

/-- The request of `TestRepository`. -/
def testRequest : createAccountRequest :=
  { AccountNumber := "123", RoutingNumber := "987654320", Type_ := .Checking }

/-- The row a create of `testRequest` for customer `cust-1` stores under the identifier
`acct-1` at clock reading 10. -/
def testRow : AccountRow :=
  { AccountID := "acct-1", CustomerID := "cust-1", UserID := "user-1",
    EncryptedAccountNumber := "enc:123", Fingerprint := "123|987654320",
    MaskedAccountNumber := "123", RoutingNumber := "987654320", Type_ := .Checking,
    Status := .None, CreatedAt := 10, DeactivatedAt := none }

/-- A second account of customer `cust-1`, created later than `testRow`. -/
def laterRow : AccountRow :=
  { testRow with AccountID := "acct-2", EncryptedAccountNumber := "enc:456",
                 Fingerprint := "456|987654320", MaskedAccountNumber := "456", CreatedAt := 20 }

/-- A deactivated account of customer `cust-1`. -/
def goneRow : AccountRow :=
  { testRow with AccountID := "acct-3", EncryptedAccountNumber := "enc:789",
                 Fingerprint := "789|987654320", MaskedAccountNumber := "789", CreatedAt := 5,
                 DeactivatedAt := some 7 }

/-- An account of another customer. -/
def otherRow : AccountRow :=
  { testRow with AccountID := "acct-4", CustomerID := "cust-2", CreatedAt := 1 }

/-- A store whose rows are not in creation order and not all active or of one
customer. -/
def mixedStore : Store :=
  { accounts := [laterRow, goneRow, testRow, otherRow], searches := [], available := true }

/-- A store that holds `testRow` and one search result saved for it. -/
def screenedStore : Store :=
  { accounts := [testRow]
    searches := [{ AccountID := "acct-1",
                   result := { EntityID := "306", SDNName := "BANCO NACIONAL DE CUBA",
                               SDNType := "entity", Match := 1065353216, CreatedAt := 12 } }]
    available := true }

/-- The row `createCustomerAccount` stores for a request whose number the keeper
encrypted to `encrypted`. -/
def newAccountRow (env : RepoEnv) (customerID userID : String) (req : createAccountRequest)
    (newID : String) (now : Time) (encrypted : String) : AccountRow :=
  { AccountID := newID, CustomerID := customerID, UserID := userID,
    EncryptedAccountNumber := encrypted,
    Fingerprint := env.fingerprint req.AccountNumber req.RoutingNumber,
    MaskedAccountNumber := maskAccountNumber req.AccountNumber,
    RoutingNumber := req.RoutingNumber, Type_ := req.Type_,
    Status := .None, CreatedAt := now, DeactivatedAt := none }

/-- What `deactivateCustomerAccount` does to one row. -/
def deactivateRow (accountID : String) (now : Time) (x : AccountRow) : AccountRow :=
  if x.active && x.AccountID == accountID then { x with DeactivatedAt := some now } else x

/-- What a successful `updateAccountStatus` does to one row. -/
def updateRow (accountID : String) (newStatus : AccountStatus) (x : AccountRow) : AccountRow :=
  if x.active && x.AccountID == accountID then { x with Status := newStatus } else x

/-- A watchlist client in the world of a running server whose searches take no time
on the clock: every search finds the same match and leaves the world as it found it. -/
def instantClient : WatchmanClient (World Unit) :=
  { Ping := fun w => (none, w)
    Search := fun _ _ _ w =>
      ((some { EntityID := "306", SdnName := "BANCO NACIONAL DE CUBA", SdnType := "entity", Match := 1065353216 }, none),
       w) }

/-- A first screening of `janeAccount` in the fresh world with the instant client. -/
def instantFirstRun : Run (World Unit) :=
  StoreAccountOFACSearch ⟨storeRepository Unit, instantClient⟩ World.clock (some janeAccount) "req-1"
    freshWorld

/-- A second screening of `janeAccount` with the instant client, in the world the first
one left. -/
def instantSecondRun : Run (World Unit) :=
  StoreAccountOFACSearch ⟨storeRepository Unit, instantClient⟩ World.clock (some janeAccount) "req-2"
    instantFirstRun.world

/-- C1: when the account is nil or its HolderName is the empty string,
StoreAccountOFACSearch returns a non-nil error and calls neither WatchmanClient.Search
nor Repo.SaveAccountOFACSearch (it makes no collaborator call and leaves the world as
it found it). -/
theorem StoreAccountOFACSearch_invalid_account {σ ρ : Type} (s : AccountOfacSearcher σ)
    (timeNow : σ → Time) (account : Option (Account ρ)) (requestID : String) (w : σ)
    (h : account = none ∨ ∃ a, account = some a ∧ a.HolderName = "") :
    (∃ e, (StoreAccountOFACSearch s timeNow account requestID w).outcome = .returned (some e)) ∧
    (StoreAccountOFACSearch s timeNow account requestID w).searches = [] ∧
    (StoreAccountOFACSearch s timeNow account requestID w).saves = [] ∧
    (StoreAccountOFACSearch s timeNow account requestID w).calls = [] ∧
    (StoreAccountOFACSearch s timeNow account requestID w).world = w := by
  rcases h with h | ⟨a, h, hn⟩
  · subst h
    simp [StoreAccountOFACSearch, Run.searches, Run.saves]
  · subst h
    simp [StoreAccountOFACSearch, hn, Run.searches, Run.saves]

/-- Witness of C1 on an account without a holder name, with collaborators that would
have succeeded. -/
theorem StoreAccountOFACSearch_invalid_account_witness :
    ((some namelessAccount = none ∨ ∃ a, some namelessAccount = some a ∧ a.HolderName = "")) ∧
    ((∃ e, (StoreAccountOFACSearch ⟨okRepo, hitClient⟩ tickClock (some namelessAccount) "req-1" 5).outcome
        = .returned (some e)) ∧
    (StoreAccountOFACSearch ⟨okRepo, hitClient⟩ tickClock (some namelessAccount) "req-1" 5).searches = [] ∧
    (StoreAccountOFACSearch ⟨okRepo, hitClient⟩ tickClock (some namelessAccount) "req-1" 5).saves = [] ∧
    (StoreAccountOFACSearch ⟨okRepo, hitClient⟩ tickClock (some namelessAccount) "req-1" 5).calls = [] ∧
    (StoreAccountOFACSearch ⟨okRepo, hitClient⟩ tickClock (some namelessAccount) "req-1" 5).world = 5) :=
  ⟨Or.inr ⟨namelessAccount, rfl, by decide⟩,
   StoreAccountOFACSearch_invalid_account ⟨okRepo, hitClient⟩ tickClock (some namelessAccount) "req-1" 5
     (Or.inr ⟨namelessAccount, rfl, by decide⟩)⟩

/-- C2: for a non-nil account with a non-empty HolderName, if the call of
WatchmanClient.Search returns an error, then StoreAccountOFACSearch returns a non-nil
error, Repo.SaveAccountOFACSearch is not called, and Search has been called exactly
once. -/
theorem StoreAccountOFACSearch_search_error {σ ρ : Type} (s : AccountOfacSearcher σ)
    (timeNow : σ → Time) (a : Account ρ) (requestID : String) (w : σ)
    (sdn : Option OfacSdn) (err : GoError) (w1 : σ)
    (hn : a.HolderName ≠ "")
    (hs : s.WatchmanClient.Search (WithTimeout Context.TODO (10 * Second) (timeNow w))
            a.HolderName requestID w = ((sdn, some err), w1)) :
    (∃ e, (StoreAccountOFACSearch s timeNow (some a) requestID w).outcome = .returned (some e)) ∧
    (StoreAccountOFACSearch s timeNow (some a) requestID w).saves = [] ∧
    (StoreAccountOFACSearch s timeNow (some a) requestID w).searches.length = 1 ∧
    (StoreAccountOFACSearch s timeNow (some a) requestID w).calls =
      [Call.Search (WithTimeout Context.TODO (10 * Second) (timeNow w)) a.HolderName requestID] := by
  simp [StoreAccountOFACSearch, hn, hs, Run.saves, Run.searches, Call.isSave, Call.isSearch]

/-- Witness of C2 with a watchlist client whose searches time out. -/
theorem StoreAccountOFACSearch_search_error_witness :
    janeAccount.HolderName ≠ "" ∧
    ((∃ e, (StoreAccountOFACSearch ⟨okRepo, downClient⟩ tickClock (some janeAccount) "req-1" 5).outcome
        = .returned (some e)) ∧
    (StoreAccountOFACSearch ⟨okRepo, downClient⟩ tickClock (some janeAccount) "req-1" 5).saves = [] ∧
    (StoreAccountOFACSearch ⟨okRepo, downClient⟩ tickClock (some janeAccount) "req-1" 5).searches.length = 1 ∧
    (StoreAccountOFACSearch ⟨okRepo, downClient⟩ tickClock (some janeAccount) "req-1" 5).calls =
      [Call.Search (WithTimeout Context.TODO (10 * Second) (tickClock 5)) janeAccount.HolderName "req-1"]) :=
  ⟨by decide,
   StoreAccountOFACSearch_search_error ⟨okRepo, downClient⟩ tickClock janeAccount "req-1" 5 none
     deadlineExceeded 6 (by decide) rfl⟩

/-- C3: for a non-nil account with a non-empty HolderName, if WatchmanClient.Search
succeeds (a result and a nil error) and Repo.SaveAccountOFACSearch, called with the
result built from it, returns an error, then StoreAccountOFACSearch returns a non-nil
error: the run is not reported as successful. -/
theorem StoreAccountOFACSearch_save_error {σ ρ : Type} (s : AccountOfacSearcher σ)
    (timeNow : σ → Time) (a : Account ρ) (requestID : String) (w : σ)
    (sdn : OfacSdn) (w1 : σ) (err : GoError) (w2 : σ)
    (hn : a.HolderName ≠ "")
    (hs : s.WatchmanClient.Search (WithTimeout Context.TODO (10 * Second) (timeNow w))
            a.HolderName requestID w = ((some sdn, none), w1))
    (hr : s.Repo.SaveAccountOFACSearch a.AccountID
            { EntityID := sdn.EntityID, SDNName := sdn.SdnName, SDNType := sdn.SdnType,
              Match := sdn.Match, CreatedAt := timeNow w1 } w1 = (some err, w2)) :
    (∃ e, (StoreAccountOFACSearch s timeNow (some a) requestID w).outcome = .returned (some e)) ∧
    (StoreAccountOFACSearch s timeNow (some a) requestID w).outcome ≠ .returned none := by
  simp [StoreAccountOFACSearch, hn, hs, hr]

/-- Witness of C3 with a watchlist client that finds a match and a repository that
rejects every save. -/
theorem StoreAccountOFACSearch_save_error_witness :
    janeAccount.HolderName ≠ "" ∧
    ((∃ e, (StoreAccountOFACSearch ⟨brokenRepo, hitClient⟩ tickClock (some janeAccount) "req-1" 5).outcome
        = .returned (some e)) ∧
    (StoreAccountOFACSearch ⟨brokenRepo, hitClient⟩ tickClock (some janeAccount) "req-1" 5).outcome
        ≠ .returned none) :=
  ⟨by decide,
   StoreAccountOFACSearch_save_error ⟨brokenRepo, hitClient⟩ tickClock janeAccount "req-1" 5
     { EntityID := "306", SdnName := "BANCO NACIONAL DE CUBA", SdnType := "entity", Match := 1065353216 } 6
     { dynType := "*errors.errorString", Error := "database is locked" } 6
     (by decide) rfl rfl⟩

/-- C4: whenever StoreAccountOFACSearch returns nil, the account is non-nil, the search
returned a result `sdn` with a nil error, and Repo.SaveAccountOFACSearch was called
exactly once, with the account's AccountID and a result whose EntityID, SDNName, SDNType
and Match are those of `sdn` and whose CreatedAt is the clock reading in the world the
search left, the one in which the save is made. -/
theorem StoreAccountOFACSearch_nil_saved_once {σ ρ : Type} (s : AccountOfacSearcher σ)
    (timeNow : σ → Time) (account : Option (Account ρ)) (requestID : String) (w : σ)
    (h : (StoreAccountOFACSearch s timeNow account requestID w).outcome = .returned none) :
    ∃ a sdn w1, account = some a ∧
      s.WatchmanClient.Search (WithTimeout Context.TODO (10 * Second) (timeNow w))
        a.HolderName requestID w = ((some sdn, none), w1) ∧
      (StoreAccountOFACSearch s timeNow account requestID w).saves =
        [Call.SaveAccountOFACSearch a.AccountID
          { EntityID := sdn.EntityID, SDNName := sdn.SdnName, SDNType := sdn.SdnType,
            Match := sdn.Match, CreatedAt := timeNow w1 }] := by
  cases account with
  | none => simp [StoreAccountOFACSearch, errorsNew] at h
  | some a =>
    by_cases hn : a.HolderName = ""
    · simp [StoreAccountOFACSearch, hn, errorsNew] at h
    · rcases hs : s.WatchmanClient.Search (WithTimeout Context.TODO (10 * Second) (timeNow w))
          a.HolderName requestID w with ⟨⟨sdn, err⟩, w1⟩
      cases err with
      | some e => simp [StoreAccountOFACSearch, hn, hs, fmtErrorf] at h
      | none =>
        cases sdn with
        | none => simp [StoreAccountOFACSearch, hn, hs] at h
        | some d =>
          rcases hr : s.Repo.SaveAccountOFACSearch a.AccountID
              { EntityID := d.EntityID, SDNName := d.SdnName, SDNType := d.SdnType,
                Match := d.Match, CreatedAt := timeNow w1 } w1 with ⟨e2, w2⟩
          cases e2 with
          | some e => simp [StoreAccountOFACSearch, hn, hs, hr, fmtErrorf] at h
          | none =>
            refine ⟨a, d, w1, rfl, hs, ?_⟩
            simp [StoreAccountOFACSearch, hn, hs, hr, Run.saves, Call.isSave]

/-- Witness of C4 on a run in which both collaborators succeed. -/
theorem StoreAccountOFACSearch_nil_saved_once_witness :
    (StoreAccountOFACSearch ⟨okRepo, hitClient⟩ tickClock (some janeAccount) "req-1" 5).outcome
      = .returned none ∧
    ∃ a sdn w1, some janeAccount = some a ∧
      hitClient.Search (WithTimeout Context.TODO (10 * Second) (tickClock 5))
        a.HolderName "req-1" 5 = ((some sdn, none), w1) ∧
      (StoreAccountOFACSearch ⟨okRepo, hitClient⟩ tickClock (some janeAccount) "req-1" 5).saves =
        [Call.SaveAccountOFACSearch a.AccountID
          { EntityID := sdn.EntityID, SDNName := sdn.SdnName, SDNType := sdn.SdnType,
            Match := sdn.Match, CreatedAt := tickClock w1 }] :=
  ⟨by decide,
   StoreAccountOFACSearch_nil_saved_once ⟨okRepo, hitClient⟩ tickClock (some janeAccount) "req-1" 5
     (by decide)⟩

/-- C5: in every run of StoreAccountOFACSearch, WatchmanClient.Search is called at most
once, and when it is called the account is non-nil, the name argument is the account's
HolderName unchanged and the requestID argument is the caller's requestID. -/
theorem StoreAccountOFACSearch_search_at_most_once {σ ρ : Type} (s : AccountOfacSearcher σ)
    (timeNow : σ → Time) (account : Option (Account ρ)) (requestID : String) (w : σ) :
    (StoreAccountOFACSearch s timeNow account requestID w).searches.length ≤ 1 ∧
    ((StoreAccountOFACSearch s timeNow account requestID w).searches = [] ∨
     ∃ a ctx, account = some a ∧
       (StoreAccountOFACSearch s timeNow account requestID w).searches =
         [Call.Search ctx a.HolderName requestID]) := by
  cases account with
  | none => simp [StoreAccountOFACSearch, Run.searches]
  | some a =>
    by_cases hn : a.HolderName = ""
    · simp [StoreAccountOFACSearch, hn, Run.searches]
    · rcases hs : s.WatchmanClient.Search (WithTimeout Context.TODO (10 * Second) (timeNow w))
          a.HolderName requestID w with ⟨⟨sdn, err⟩, w1⟩
      cases err with
      | some e => simp [StoreAccountOFACSearch, hn, hs, Run.searches, Call.isSearch]
      | none =>
        cases sdn with
        | none => simp [StoreAccountOFACSearch, hn, hs, Run.searches, Call.isSearch]
        | some d =>
          rcases hr : s.Repo.SaveAccountOFACSearch a.AccountID
              { EntityID := d.EntityID, SDNName := d.SdnName, SDNType := d.SdnType,
                Match := d.Match, CreatedAt := timeNow w1 } w1 with ⟨e2, w2⟩
          cases e2 with
          | some e => simp [StoreAccountOFACSearch, hn, hs, hr, Run.searches, Call.isSearch]
          | none => simp [StoreAccountOFACSearch, hn, hs, hr, Run.searches, Call.isSearch]


/-! ## The screener: what its errors carry -/

/-- C6 (as stated, refuted): no caller can recover the underlying cause from the
returned error. A search that fails with `context.DeadlineExceeded` and a search that
fails with a different error value of the same text give the very same returned error,
and so do two accounts and causes whose identifier and text differ only in where the
separator falls; hence no function reads the AccountID and the cause back. -/
theorem StoreAccountOFACSearch_cause_not_recoverable :
    deadlineExceeded ≠ sameTextError ∧
    (StoreAccountOFACSearch ⟨okRepo, failingClient deadlineExceeded⟩ tickClock
        (some janeAccount) "req-1" 5).outcome =
      (StoreAccountOFACSearch ⟨okRepo, failingClient sameTextError⟩ tickClock
        (some janeAccount) "req-1" 5).outcome ∧
    (StoreAccountOFACSearch ⟨okRepo, failingClient (fmtErrorf "c")⟩ tickClock
        (some ({ AccountID := "a: b", HolderName := "Jane Doe", rest := "" } : Account String))
        "req-1" 5).outcome =
      (StoreAccountOFACSearch ⟨okRepo, failingClient (fmtErrorf "b: c")⟩ tickClock
        (some ({ AccountID := "a", HolderName := "Jane Doe", rest := "" } : Account String))
        "req-1" 5).outcome ∧
    ¬ ∃ recover : GoError → String × GoError,
        ∀ (cause e : GoError),
          (StoreAccountOFACSearch ⟨okRepo, failingClient cause⟩ tickClock
            (some janeAccount) "req-1" 5).outcome = .returned (some e) →
          recover e = (janeAccount.AccountID, cause) := by
  refine ⟨by decide, by decide, by decide, ?_⟩
  rintro ⟨recover, h⟩
  have h1 := h deadlineExceeded _ rfl
  have h2 := h sameTextError _ rfl
  have h3 : (janeAccount.AccountID, deadlineExceeded) = (janeAccount.AccountID, sameTextError) :=
    h1.symm.trans h2
  exact absurd (Prod.mk.inj h3).2 (by decide)

/-- C6 (amended): when the search fails, the returned error is a text-only error (the
result of fmt.Errorf without wrapping) whose message is the fixed text of the search
step, "...: name search for account=", then the account's AccountID, a colon and a
space, and the text of the Error() of the error Search returned; when the search
succeeds and the save fails, it is a text-only error whose message is the fixed text of
the save step, "...: SaveAccountOFACSearch account=", then the AccountID, a colon and a
space, and the text of the Error() of the error SaveAccountOFACSearch returned. Each
message contains the AccountID and the message of its cause. -/
theorem StoreAccountOFACSearch_error_text {σ ρ : Type} (s : AccountOfacSearcher σ)
    (timeNow : σ → Time) (a : Account ρ) (requestID : String) (w : σ) (cause : GoError)
    (hn : a.HolderName ≠ "") :
    (∀ sdn w1,
      s.WatchmanClient.Search (WithTimeout Context.TODO (10 * Second) (timeNow w))
        a.HolderName requestID w = ((sdn, some cause), w1) →
      (StoreAccountOFACSearch s timeNow (some a) requestID w).outcome =
        .returned (some { dynType := "*errors.errorString",
                          Error := "AccountOfacSearcher.StoreAccountOFACSearch: name search for account="
                            ++ a.AccountID ++ ": " ++ cause.Error })) ∧
    (∀ sdn w1 w2,
      s.WatchmanClient.Search (WithTimeout Context.TODO (10 * Second) (timeNow w))
        a.HolderName requestID w = ((some sdn, none), w1) →
      s.Repo.SaveAccountOFACSearch a.AccountID
        { EntityID := sdn.EntityID, SDNName := sdn.SdnName, SDNType := sdn.SdnType,
          Match := sdn.Match, CreatedAt := timeNow w1 } w1 = (some cause, w2) →
      (StoreAccountOFACSearch s timeNow (some a) requestID w).outcome =
        .returned (some { dynType := "*errors.errorString",
                          Error := "AccountOfacSearcher.StoreAccountOFACSearch: SaveAccountOFACSearch account="
                            ++ a.AccountID ++ ": " ++ cause.Error })) := by
  constructor
  · intro sdn w1 hs
    simp [StoreAccountOFACSearch, hn, hs, fmtErrorf, searchFailedText]
  · intro sdn w1 w2 hs hr
    simp [StoreAccountOFACSearch, hn, hs, hr, fmtErrorf, saveFailedText]

/-- Witness of the amended C6: a search that times out gives the message of the search
step, and a save that is rejected after a successful search gives the message of the
save step. -/
theorem StoreAccountOFACSearch_error_text_witness :
    janeAccount.HolderName ≠ "" ∧
    (StoreAccountOFACSearch ⟨okRepo, downClient⟩ tickClock (some janeAccount) "req-1" 5).outcome =
      .returned (some { dynType := "*errors.errorString",
                        Error := "AccountOfacSearcher.StoreAccountOFACSearch: name search for account=acct-1: context deadline exceeded" }) ∧
    (StoreAccountOFACSearch ⟨brokenRepo, hitClient⟩ tickClock (some janeAccount) "req-1" 5).outcome =
      .returned (some { dynType := "*errors.errorString",
                        Error := "AccountOfacSearcher.StoreAccountOFACSearch: SaveAccountOFACSearch account=acct-1: database is locked" }) :=
  ⟨by decide,
   (StoreAccountOFACSearch_error_text ⟨okRepo, downClient⟩ tickClock janeAccount "req-1" 5
     deadlineExceeded (by decide)).1 none 6 rfl,
   (StoreAccountOFACSearch_error_text ⟨brokenRepo, hitClient⟩ tickClock janeAccount "req-1" 5
     { dynType := "*errors.errorString", Error := "database is locked" } (by decide)).2
     { EntityID := "306", SdnName := "BANCO NACIONAL DE CUBA", SdnType := "entity", Match := 1065353216 }
     6 6 rfl rfl⟩

/-! ## The screener: the context of the search -/

/-- C8 (as stated, refuted): the context passed to Search is not derived from a context
of the caller. On a run started at clock reading 5 its parent is `context.TODO()`, which
has no deadline, and its deadline is ten seconds after the start; a context nested in
that of a caller whose deadline is one second after the start would expire at that
earlier deadline instead. -/
theorem StoreAccountOFACSearch_context_not_nested :
    (StoreAccountOFACSearch ⟨okRepo, hitClient⟩ tickClock (some janeAccount) "req-1" 5).searches =
      [Call.Search (Context.WithDeadline Context.TODO 10000000005) "Jane Doe" "req-1"] ∧
    (Context.WithDeadline Context.TODO 10000000005).parent = some Context.TODO ∧
    (Context.WithDeadline Context.TODO 10000000005).parent ≠ some callerContext ∧
    Context.TODO.Deadline = none ∧
    callerContext.Deadline = some 1000000005 ∧
    (Context.WithDeadline Context.TODO 10000000005).Deadline = some 10000000005 ∧
    (WithTimeout callerContext (10 * Second) 5).Deadline = some 1000000005 := by
  decide

/-- C8 (amended): whenever Search is called, the context it is given is
`context.WithTimeout(context.TODO(), 10*time.Second)`: its deadline is ten seconds after
the clock reading at the start of the call, and its parent is `context.TODO()`, which
carries no deadline; no context of the caller takes part. -/
theorem StoreAccountOFACSearch_search_context {σ ρ : Type} (s : AccountOfacSearcher σ)
    (timeNow : σ → Time) (a : Account ρ) (requestID : String) (w : σ)
    (hn : a.HolderName ≠ "") :
    (StoreAccountOFACSearch s timeNow (some a) requestID w).searches =
      [Call.Search (Context.WithDeadline Context.TODO (timeNow w + 10000000000))
        a.HolderName requestID] ∧
    (Context.WithDeadline Context.TODO (timeNow w + 10000000000)).Deadline
      = some (timeNow w + 10000000000) ∧
    (Context.WithDeadline Context.TODO (timeNow w + 10000000000)).parent = some Context.TODO ∧
    Context.TODO.Deadline = none := by
  have hctx : WithTimeout Context.TODO (10 * Second) (timeNow w)
      = Context.WithDeadline Context.TODO (timeNow w + 10000000000) := by
    simp [WithTimeout, Second]
  refine ⟨?_, by simp [Context.Deadline], rfl, rfl⟩
  rw [← hctx]
  rcases hs : s.WatchmanClient.Search (WithTimeout Context.TODO (10 * Second) (timeNow w))
      a.HolderName requestID w with ⟨⟨sdn, err⟩, w1⟩
  cases err with
  | some e => simp [StoreAccountOFACSearch, hn, hs, Run.searches, Call.isSearch]
  | none =>
    cases sdn with
    | none => simp [StoreAccountOFACSearch, hn, hs, Run.searches, Call.isSearch]
    | some d =>
      rcases hr : s.Repo.SaveAccountOFACSearch a.AccountID
          { EntityID := d.EntityID, SDNName := d.SdnName, SDNType := d.SdnType,
            Match := d.Match, CreatedAt := timeNow w1 } w1 with ⟨e2, w2⟩
      cases e2 with
      | some e => simp [StoreAccountOFACSearch, hn, hs, hr, Run.searches, Call.isSearch]
      | none => simp [StoreAccountOFACSearch, hn, hs, hr, Run.searches, Call.isSearch]

/-- Witness of the amended C8 on a successful run started at clock reading 5. -/
theorem StoreAccountOFACSearch_search_context_witness :
    janeAccount.HolderName ≠ "" ∧
    ((StoreAccountOFACSearch ⟨okRepo, hitClient⟩ tickClock (some janeAccount) "req-1" 5).searches =
      [Call.Search (Context.WithDeadline Context.TODO (tickClock 5 + 10000000000))
        janeAccount.HolderName "req-1"] ∧
    (Context.WithDeadline Context.TODO (tickClock 5 + 10000000000)).Deadline
      = some (tickClock 5 + 10000000000) ∧
    (Context.WithDeadline Context.TODO (tickClock 5 + 10000000000)).parent = some Context.TODO ∧
    Context.TODO.Deadline = none) :=
  ⟨by decide,
   StoreAccountOFACSearch_search_context ⟨okRepo, hitClient⟩ tickClock janeAccount "req-1" 5
     (by decide)⟩

/-! ## The screener: one search, of the holder name -/

/-- The candidate kept by `laterResult` over a list is no later than any bound on the
list and on the starting candidate. -/
theorem foldl_laterResult_le (t : Time) (l : List ofacSearchResult) :
    ∀ best : Option ofacSearchResult,
      (∀ r ∈ l, r.CreatedAt ≤ t) → (∀ b, best = some b → b.CreatedAt ≤ t) →
      ∀ b, l.foldl laterResult best = some b → b.CreatedAt ≤ t := by
  induction l with
  | nil => intro best _ hb b h; exact hb b h
  | cons x xs ih =>
    intro best hl hb b h
    simp only [List.foldl_cons] at h
    refine ih (laterResult best x) (fun r hr => hl r (List.mem_cons_of_mem _ hr)) ?_ b h
    intro c hc
    cases best with
    | none =>
      simp only [laterResult, Option.some.injEq] at hc
      subst hc
      exact hl _ (List.mem_cons_self _ _)
    | some b0 =>
      simp only [laterResult] at hc
      split at hc
      · simp only [Option.some.injEq] at hc
        subst hc
        exact hl _ (List.mem_cons_self _ _)
      · simp only [Option.some.injEq] at hc
        subst hc
        exact hb _ rfl

/-- The results of an account after one more row for it was appended. -/
theorem getAccountOFACSearches_append (accountID : String) (r : ofacSearchResult) (st st2 : Store)
    (hrows : st2.searches = st.searches ++ [{ AccountID := accountID, result := r }]) :
    getAccountOFACSearches accountID st2 = getAccountOFACSearches accountID st ++ [r] := by
  simp [getAccountOFACSearches, hrows, List.filter_append]

/-- The authoritative result after an append of a result that is no earlier than every
stored result of the account is the appended result. -/
theorem getLatestAccountOFACSearch_append (accountID : String) (r : ofacSearchResult) (st st2 : Store)
    (hrows : st2.searches = st.searches ++ [{ AccountID := accountID, result := r }])
    (h : ∀ x ∈ getAccountOFACSearches accountID st, x.CreatedAt ≤ r.CreatedAt) :
    getLatestAccountOFACSearch accountID st2 = some r := by
  unfold getLatestAccountOFACSearch
  rw [getAccountOFACSearches_append accountID r st st2 hrows, List.foldl_append]
  simp only [List.foldl_cons, List.foldl_nil]
  cases hb : (getAccountOFACSearches accountID st).foldl laterResult none with
  | none => rfl
  | some b =>
    have := foldl_laterResult_le r.CreatedAt _ none h (by simp) b hb
    simp [laterResult, this]

/-- The shape of a successful run against the repository of the spec: the search
returned a result, one row was appended for the account, nothing else changed. -/
theorem storeRun_success {ω ρ : Type} (wc : WatchmanClient (World ω)) (a : Account ρ)
    (requestID : String) (w : World ω)
    (h : (StoreAccountOFACSearch ⟨storeRepository ω, wc⟩ World.clock (some a) requestID w).outcome
          = .returned none) :
    ∃ sdn w1,
      wc.Search (WithTimeout Context.TODO (10 * Second) w.clock) a.HolderName requestID w
        = ((some sdn, none), w1) ∧
      (StoreAccountOFACSearch ⟨storeRepository ω, wc⟩ World.clock (some a) requestID w).saves =
        [Call.SaveAccountOFACSearch a.AccountID
          { EntityID := sdn.EntityID, SDNName := sdn.SdnName, SDNType := sdn.SdnType,
            Match := sdn.Match, CreatedAt := w1.clock }] ∧
      (StoreAccountOFACSearch ⟨storeRepository ω, wc⟩ World.clock (some a) requestID w).world =
        { w1 with store := { w1.store with searches := w1.store.searches ++
            [{ AccountID := a.AccountID,
               result := { EntityID := sdn.EntityID, SDNName := sdn.SdnName, SDNType := sdn.SdnType,
                           Match := sdn.Match, CreatedAt := w1.clock } }] } } := by
  by_cases hn : a.HolderName = ""
  · simp [StoreAccountOFACSearch, hn, errorsNew] at h
  · rcases hs : wc.Search (WithTimeout Context.TODO (10 * Second) w.clock)
        a.HolderName requestID w with ⟨⟨sdn, err⟩, w1⟩
    cases err with
    | some e => simp [StoreAccountOFACSearch, hn, hs, fmtErrorf] at h
    | none =>
      cases sdn with
      | none => simp [StoreAccountOFACSearch, hn, hs] at h
      | some d =>
        by_cases hav : w1.store.available = false
        · simp [StoreAccountOFACSearch, hn, hs, storeRepository, SaveAccountOFACSearch, hav, fmtErrorf] at h
        · refine ⟨d, w1, rfl, ?_, ?_⟩
          · simp [StoreAccountOFACSearch, hn, hs, storeRepository, SaveAccountOFACSearch, hav,
              Run.saves, Call.isSave]
          · simp [StoreAccountOFACSearch, hn, hs, storeRepository, SaveAccountOFACSearch, hav]


/-- What `laterResult` keeps over a list: a result that is the starting candidate or on
the list, and that no result on the list and no starting candidate is later than. -/
theorem foldl_laterResult_max (l : List ofacSearchResult) :
    ∀ acc : Option ofacSearchResult, (acc ≠ none ∨ l ≠ []) →
      ∃ best, l.foldl laterResult acc = some best ∧ (best ∈ l ∨ acc = some best) ∧
        (∀ x ∈ l, x.CreatedAt ≤ best.CreatedAt) ∧
        (∀ b, acc = some b → b.CreatedAt ≤ best.CreatedAt) := by
  induction l with
  | nil =>
    intro acc h
    cases acc with
    | none => simp at h
    | some b => exact ⟨b, rfl, Or.inr rfl, by simp, fun c hc => by cases hc; exact le_refl _⟩
  | cons x xs ih =>
    intro acc _
    have hsome : laterResult acc x ≠ none := by
      cases acc with
      | none => simp [laterResult]
      | some b => simp only [laterResult]; split <;> simp
    obtain ⟨best, hfold, hmem, hall, hacc⟩ := ih (laterResult acc x) (Or.inl hsome)
    have hx : ∃ c, laterResult acc x = some c ∧ x.CreatedAt ≤ c.CreatedAt ∧
        (c = x ∨ acc = some c) ∧ (∀ b, acc = some b → b.CreatedAt ≤ c.CreatedAt) := by
      cases acc with
      | none => exact ⟨x, rfl, le_refl _, Or.inl rfl, by simp⟩
      | some b =>
        by_cases hle : b.CreatedAt ≤ x.CreatedAt
        · exact ⟨x, by simp [laterResult, hle], le_refl _, Or.inl rfl,
            fun c hc => by cases hc; exact hle⟩
        · exact ⟨b, by simp [laterResult, hle], le_of_lt (lt_of_not_le hle), Or.inr rfl,
            fun c hc => by cases hc; exact le_refl _⟩
    obtain ⟨c, hc, hxc, hcsrc, hcacc⟩ := hx
    have hcbest : c.CreatedAt ≤ best.CreatedAt := hacc c hc
    refine ⟨best, by simpa [List.foldl_cons] using hfold, ?_, ?_, ?_⟩
    · rcases hmem with hm | hm
      · exact Or.inl (List.mem_cons_of_mem _ hm)
      · rw [hc] at hm
        cases hm
        rcases hcsrc with h1 | h1
        · exact Or.inl (by rw [h1]; exact List.mem_cons_self _ _)
        · exact Or.inr h1
    · intro y hy
      rcases List.mem_cons.mp hy with h1 | h1
      · rw [h1]; exact le_trans hxc hcbest
      · exact hall y h1
    · intro b hb
      exact le_trans (hcacc b hb) hcbest

/-- C7 (as stated, refuted): with a watchlist search that takes no time on the clock,
two successful calls of StoreAccountOFACSearch for the same account store two records
that are equal in every field: the CreatedAt of the second is not later than that of
the first, and the two records are not distinct. -/
theorem StoreAccountOFACSearch_twice_same_instant :
    instantFirstRun.outcome = .returned none ∧
    instantSecondRun.outcome = .returned none ∧
    instantSecondRun.world.store.searches =
      [{ AccountID := "acct-1",
         result := { EntityID := "306", SDNName := "BANCO NACIONAL DE CUBA", SDNType := "entity",
                     Match := 1065353216, CreatedAt := 5 } },
       { AccountID := "acct-1",
         result := { EntityID := "306", SDNName := "BANCO NACIONAL DE CUBA", SDNType := "entity",
                     Match := 1065353216, CreatedAt := 5 } }] ∧
    instantFirstRun.saves = instantSecondRun.saves ∧
    ¬ ∃ r1 r2 : ofacSearchResult,
        instantFirstRun.saves = [Call.SaveAccountOFACSearch "acct-1" r1] ∧
        instantSecondRun.saves = [Call.SaveAccountOFACSearch "acct-1" r2] ∧
        r1.CreatedAt < r2.CreatedAt := by
  refine ⟨by decide, by decide, by decide, by decide, ?_⟩
  rintro ⟨r1, r2, h1, h2, hlt⟩
  have e1 : instantFirstRun.saves = [Call.SaveAccountOFACSearch "acct-1"
      { EntityID := "306", SDNName := "BANCO NACIONAL DE CUBA", SDNType := "entity",
        Match := 1065353216, CreatedAt := 5 }] := by decide
  have e2 : instantSecondRun.saves = [Call.SaveAccountOFACSearch "acct-1"
      { EntityID := "306", SDNName := "BANCO NACIONAL DE CUBA", SDNType := "entity",
        Match := 1065353216, CreatedAt := 5 }] := by decide
  rw [e1] at h1
  rw [e2] at h2
  simp only [List.cons.injEq, Call.SaveAccountOFACSearch.injEq, and_true, true_and] at h1 h2
  subst h1
  subst h2
  exact absurd hlt (by decide)

/-- C7 (amended): against the repository of the spec, take two successful calls of
StoreAccountOFACSearch for an account, the second starting from the repository as the
first left it, whose searches leave the storage as they found it. They append two
records keyed to the account after the rows already stored, so nothing is overwritten.
The CreatedAt of each record is the clock reading when its search returned; hence the
second record has a later CreatedAt than the first, and differs from it, whenever the
clock reading after the second search is later than the reading after the first. The
authoritative result afterwards is a stored result of the account that no stored result
of the account is later than, and it is the second record when no earlier result of the
account is later than it. -/
theorem StoreAccountOFACSearch_twice_appends {ω ρ : Type} (wc : WatchmanClient (World ω))
    (a : Account ρ) (req1 req2 : String) (w w2 : World ω)
    (h1 : (StoreAccountOFACSearch ⟨storeRepository ω, wc⟩ World.clock (some a) req1 w).outcome
            = .returned none)
    (h2 : (StoreAccountOFACSearch ⟨storeRepository ω, wc⟩ World.clock (some a) req2 w2).outcome
            = .returned none)
    (hs1 : (wc.Search (WithTimeout Context.TODO (10 * Second) w.clock) a.HolderName req1 w).2.store
            = w.store)
    (hs2 : (wc.Search (WithTimeout Context.TODO (10 * Second) w2.clock) a.HolderName req2 w2).2.store
            = w2.store)
    (hkept : w2.store
            = (StoreAccountOFACSearch ⟨storeRepository ω, wc⟩ World.clock (some a) req1 w).world.store) :
    ∃ r1 r2 : ofacSearchResult,
      (StoreAccountOFACSearch ⟨storeRepository ω, wc⟩ World.clock (some a) req1 w).saves
        = [Call.SaveAccountOFACSearch a.AccountID r1] ∧
      (StoreAccountOFACSearch ⟨storeRepository ω, wc⟩ World.clock (some a) req2 w2).saves
        = [Call.SaveAccountOFACSearch a.AccountID r2] ∧
      r1.CreatedAt
        = (wc.Search (WithTimeout Context.TODO (10 * Second) w.clock) a.HolderName req1 w).2.clock ∧
      r2.CreatedAt
        = (wc.Search (WithTimeout Context.TODO (10 * Second) w2.clock) a.HolderName req2 w2).2.clock ∧
      (StoreAccountOFACSearch ⟨storeRepository ω, wc⟩ World.clock (some a) req2 w2).world.store.searches
        = w.store.searches ++
            [{ AccountID := a.AccountID, result := r1 }, { AccountID := a.AccountID, result := r2 }] ∧
      getAccountOFACSearches a.AccountID
          (StoreAccountOFACSearch ⟨storeRepository ω, wc⟩ World.clock (some a) req2 w2).world.store
        = getAccountOFACSearches a.AccountID w.store ++ [r1, r2] ∧
      ((wc.Search (WithTimeout Context.TODO (10 * Second) w.clock) a.HolderName req1 w).2.clock
          < (wc.Search (WithTimeout Context.TODO (10 * Second) w2.clock) a.HolderName req2 w2).2.clock →
        r1.CreatedAt < r2.CreatedAt ∧ r1 ≠ r2) ∧
      (∃ best,
        getLatestAccountOFACSearch a.AccountID
          (StoreAccountOFACSearch ⟨storeRepository ω, wc⟩ World.clock (some a) req2 w2).world.store
          = some best ∧
        best ∈ getAccountOFACSearches a.AccountID
          (StoreAccountOFACSearch ⟨storeRepository ω, wc⟩ World.clock (some a) req2 w2).world.store ∧
        ∀ x ∈ getAccountOFACSearches a.AccountID
            (StoreAccountOFACSearch ⟨storeRepository ω, wc⟩ World.clock (some a) req2 w2).world.store,
          x.CreatedAt ≤ best.CreatedAt) ∧
      ((∀ x ∈ getAccountOFACSearches a.AccountID w.store, x.CreatedAt ≤ r2.CreatedAt) →
        r1.CreatedAt ≤ r2.CreatedAt →
        getLatestAccountOFACSearch a.AccountID
          (StoreAccountOFACSearch ⟨storeRepository ω, wc⟩ World.clock (some a) req2 w2).world.store
          = some r2) := by
  obtain ⟨d1, v1, hq1, hsave1, hw1⟩ := storeRun_success wc a req1 w h1
  obtain ⟨d2, v2, hq2, hsave2, hw2⟩ := storeRun_success wc a req2 w2 h2
  rw [hq1] at hs1
  rw [hq2] at hs2
  simp only at hs1 hs2
  rw [hq1, hq2]
  rw [hw1] at hkept
  simp only at hkept
  have hmid : w2.store.searches = w.store.searches ++
      [{ AccountID := a.AccountID,
         result := { EntityID := d1.EntityID, SDNName := d1.SdnName, SDNType := d1.SdnType,
                     Match := d1.Match, CreatedAt := v1.clock } }] := by
    rw [hkept, hs1]
  have hmidResults := getAccountOFACSearches_append a.AccountID _ w.store w2.store hmid
  have hsecond : (StoreAccountOFACSearch ⟨storeRepository ω, wc⟩ World.clock (some a) req2 w2).world.store.searches
      = w2.store.searches ++
        [{ AccountID := a.AccountID,
           result := { EntityID := d2.EntityID, SDNName := d2.SdnName, SDNType := d2.SdnType,
                       Match := d2.Match, CreatedAt := v2.clock } }] := by
    rw [hw2]
    simp [hs2]
  have hresults := getAccountOFACSearches_append a.AccountID _ w2.store _ hsecond
  rw [hmidResults] at hresults
  refine ⟨_, _, hsave1, hsave2, rfl, rfl, ?_, ?_, ?_, ?_, ?_⟩
  · rw [hsecond, hmid]
    simp
  · rw [hresults]
    simp
  · intro hlt
    exact ⟨hlt, fun heq => absurd (congrArg ofacSearchResult.CreatedAt heq) (ne_of_lt hlt)⟩
  · obtain ⟨best, hfold, hmem, hall, _⟩ := foldl_laterResult_max
      (getAccountOFACSearches a.AccountID
        (StoreAccountOFACSearch ⟨storeRepository ω, wc⟩ World.clock (some a) req2 w2).world.store)
      none (Or.inr (by rw [hresults]; simp))
    refine ⟨best, hfold, ?_, hall⟩
    rcases hmem with hm | hm
    · exact hm
    · cases hm
  · intro hold hle
    refine getLatestAccountOFACSearch_append a.AccountID _ w2.store _ hsecond ?_
    intro x hx
    rw [hmidResults] at hx
    rcases List.mem_append.mp hx with hx | hx
    · exact hold x hx
    · simp only [List.mem_singleton] at hx
      subst hx
      exact hle

/-- Witness of the amended C7: two screenings of the same account, one after the other,
in a fresh world whose watchlist search takes one nanosecond. -/
theorem StoreAccountOFACSearch_twice_appends_witness :
    (firstRun.outcome = .returned none ∧ secondRun.outcome = .returned none) ∧
    secondRun.world.store.searches =
      [{ AccountID := "acct-1",
         result := { EntityID := "306", SDNName := "BANCO NACIONAL DE CUBA", SDNType := "entity",
                     Match := 1065353216, CreatedAt := 6 } },
       { AccountID := "acct-1",
         result := { EntityID := "306", SDNName := "BANCO NACIONAL DE CUBA", SDNType := "entity",
                     Match := 1065353216, CreatedAt := 7 } }] ∧
    ∃ r1 r2 : ofacSearchResult,
      firstRun.saves = [Call.SaveAccountOFACSearch janeAccount.AccountID r1] ∧
      secondRun.saves = [Call.SaveAccountOFACSearch janeAccount.AccountID r2] ∧
      r1.CreatedAt
        = (steadyClient.Search (WithTimeout Context.TODO (10 * Second) freshWorld.clock)
            janeAccount.HolderName "req-1" freshWorld).2.clock ∧
      r2.CreatedAt
        = (steadyClient.Search (WithTimeout Context.TODO (10 * Second) firstRun.world.clock)
            janeAccount.HolderName "req-2" firstRun.world).2.clock ∧
      secondRun.world.store.searches
        = freshWorld.store.searches ++
            [{ AccountID := janeAccount.AccountID, result := r1 },
             { AccountID := janeAccount.AccountID, result := r2 }] ∧
      getAccountOFACSearches janeAccount.AccountID secondRun.world.store
        = getAccountOFACSearches janeAccount.AccountID freshWorld.store ++ [r1, r2] ∧
      ((steadyClient.Search (WithTimeout Context.TODO (10 * Second) freshWorld.clock)
            janeAccount.HolderName "req-1" freshWorld).2.clock
          < (steadyClient.Search (WithTimeout Context.TODO (10 * Second) firstRun.world.clock)
            janeAccount.HolderName "req-2" firstRun.world).2.clock →
        r1.CreatedAt < r2.CreatedAt ∧ r1 ≠ r2) ∧
      (∃ best,
        getLatestAccountOFACSearch janeAccount.AccountID secondRun.world.store = some best ∧
        best ∈ getAccountOFACSearches janeAccount.AccountID secondRun.world.store ∧
        ∀ x ∈ getAccountOFACSearches janeAccount.AccountID secondRun.world.store,
          x.CreatedAt ≤ best.CreatedAt) ∧
      ((∀ x ∈ getAccountOFACSearches janeAccount.AccountID freshWorld.store,
          x.CreatedAt ≤ r2.CreatedAt) →
        r1.CreatedAt ≤ r2.CreatedAt →
        getLatestAccountOFACSearch janeAccount.AccountID secondRun.world.store = some r2) :=
  ⟨⟨by decide, by decide⟩, by decide,
   StoreAccountOFACSearch_twice_appends steadyClient janeAccount "req-1" "req-2" freshWorld
     firstRun.world (by decide) (by decide) rfl rfl rfl⟩

/-! ## The screener: when it returns nil, and nil pointers -/

/-- C16 (amended): StoreAccountOFACSearch returns nil exactly when the account is
non-nil, its HolderName is non-empty, WatchmanClient.Search returns a non-nil result
with no error, and Repo.SaveAccountOFACSearch, called with the account's AccountID and
the result built from what the search returned, returns no error. -/
theorem StoreAccountOFACSearch_nil_iff {σ ρ : Type} (s : AccountOfacSearcher σ)
    (timeNow : σ → Time) (account : Option (Account ρ)) (requestID : String) (w : σ) :
    (StoreAccountOFACSearch s timeNow account requestID w).outcome = .returned none ↔
    ∃ a sdn w1 w2, account = some a ∧ a.HolderName ≠ "" ∧
      s.WatchmanClient.Search (WithTimeout Context.TODO (10 * Second) (timeNow w))
        a.HolderName requestID w = ((some sdn, none), w1) ∧
      s.Repo.SaveAccountOFACSearch a.AccountID
        { EntityID := sdn.EntityID, SDNName := sdn.SdnName, SDNType := sdn.SdnType,
          Match := sdn.Match, CreatedAt := timeNow w1 } w1 = (none, w2) := by
  constructor
  · intro h
    cases account with
    | none => simp [StoreAccountOFACSearch, errorsNew] at h
    | some a =>
      by_cases hn : a.HolderName = ""
      · simp [StoreAccountOFACSearch, hn, errorsNew] at h
      · rcases hs : s.WatchmanClient.Search (WithTimeout Context.TODO (10 * Second) (timeNow w))
            a.HolderName requestID w with ⟨⟨sdn, err⟩, w1⟩
        cases err with
        | some e => simp [StoreAccountOFACSearch, hn, hs, fmtErrorf] at h
        | none =>
          cases sdn with
          | none => simp [StoreAccountOFACSearch, hn, hs] at h
          | some d =>
            rcases hr : s.Repo.SaveAccountOFACSearch a.AccountID
                { EntityID := d.EntityID, SDNName := d.SdnName, SDNType := d.SdnType,
                  Match := d.Match, CreatedAt := timeNow w1 } w1 with ⟨e2, w2⟩
            cases e2 with
            | some e => simp [StoreAccountOFACSearch, hn, hs, hr, fmtErrorf] at h
            | none => exact ⟨a, d, w1, w2, rfl, hn, hs, hr⟩
  · rintro ⟨a, sdn, w1, w2, rfl, hn, hs, hr⟩
    simp [StoreAccountOFACSearch, hn, hs, hr]

/-- C16 (as stated, refuted): with a non-nil account, a non-empty HolderName, a search
that returns no error and a repository whose every save returns no error, the method
does not return nil when the search returned a nil result with its nil error: the run
ends in a nil pointer dereference on the fields of the result. So "returns nil exactly
when the four conditions hold" fails on this run. -/
theorem StoreAccountOFACSearch_nil_result_no_nil_return :
    (StoreAccountOFACSearch ⟨okRepo, noMatchClient⟩ tickClock (some janeAccount) "req-1" 5).outcome
      = .nilDereference ∧
    (∀ accountID result v, (okRepo.SaveAccountOFACSearch accountID result v).1 = none) ∧
    ¬ ((StoreAccountOFACSearch ⟨okRepo, noMatchClient⟩ tickClock (some janeAccount) "req-1" 5).outcome
        = .returned none ↔
      ∃ a, some janeAccount = some a ∧ a.HolderName ≠ "" ∧
        (noMatchClient.Search (WithTimeout Context.TODO (10 * Second) (tickClock 5))
          a.HolderName "req-1" 5).1.2 = none ∧
        ∀ sdn, (noMatchClient.Search (WithTimeout Context.TODO (10 * Second) (tickClock 5))
            a.HolderName "req-1" 5).1.1 = some sdn →
          (okRepo.SaveAccountOFACSearch a.AccountID
            { EntityID := sdn.EntityID, SDNName := sdn.SdnName, SDNType := sdn.SdnType,
              Match := sdn.Match,
              CreatedAt := tickClock (noMatchClient.Search
                (WithTimeout Context.TODO (10 * Second) (tickClock 5)) a.HolderName "req-1" 5).2 }
            (noMatchClient.Search (WithTimeout Context.TODO (10 * Second) (tickClock 5))
              a.HolderName "req-1" 5).2).1 = none) := by
  refine ⟨by decide, fun _ _ _ => rfl, ?_⟩
  intro h
  have hnil := h.mpr ⟨janeAccount, rfl, by decide, rfl, fun sdn hs => by simp [noMatchClient] at hs⟩
  exact absurd hnil (by decide)

/-- Through a receiver that is not nil and whose collaborators are not nil, the method
runs as `StoreAccountOFACSearch` does. -/
theorem StoreAccountOFACSearchNilable_eq {σ ρ : Type} (repo : Repository σ)
    (client : WatchmanClient σ) (timeNow : σ → Time) (account : Option (Account ρ))
    (requestID : String) (w : σ) :
    StoreAccountOFACSearchNilable (some { Repo := some repo, WatchmanClient := some client })
        timeNow account requestID w
      = StoreAccountOFACSearch ⟨repo, client⟩ timeNow account requestID w := by
  cases account with
  | none => rfl
  | some a =>
    by_cases hn : a.HolderName = ""
    · simp [StoreAccountOFACSearchNilable, StoreAccountOFACSearch, hn]
    · rcases hs : client.Search (WithTimeout Context.TODO (10 * Second) (timeNow w))
          a.HolderName requestID w with ⟨⟨sdn, err⟩, w1⟩
      cases err with
      | some e => simp [StoreAccountOFACSearchNilable, StoreAccountOFACSearch, hn, hs]
      | none =>
        cases sdn with
        | none => simp [StoreAccountOFACSearchNilable, StoreAccountOFACSearch, hn, hs]
        | some d => simp [StoreAccountOFACSearchNilable, StoreAccountOFACSearch, hn, hs]

/-- C17 (as stated, refuted): the precondition on Search does not keep the method from
dereferencing a nil pointer. With a watchlist client that returns a non-nil result on
every search, a receiver whose Repo is nil ends in a nil pointer dereference when the
save is reached, and so does a nil receiver when the search is reached. -/
theorem StoreAccountOFACSearchNilable_nil_receiver :
    (∀ ctx name rid v, (hitClient.Search ctx name rid v).1.2 = none →
        (hitClient.Search ctx name rid v).1.1 ≠ none) ∧
    (StoreAccountOFACSearchNilable (some { Repo := none, WatchmanClient := some hitClient })
        tickClock (some janeAccount) "req-1" 5).outcome = .nilDereference ∧
    (StoreAccountOFACSearchNilable (some { Repo := none, WatchmanClient := some hitClient })
        tickClock (some janeAccount) "req-1" 5).calls =
      [Call.Search (WithTimeout Context.TODO (10 * Second) (tickClock 5)) "Jane Doe" "req-1"] ∧
    (StoreAccountOFACSearchNilable (none : Option (AccountOfacSearcherNilable Nat))
        tickClock (some janeAccount) "req-1" 5).outcome = .nilDereference ∧
    (StoreAccountOFACSearchNilable (some { Repo := some okRepo, WatchmanClient := none })
        tickClock (some janeAccount) "req-1" 5).outcome = .nilDereference :=
  ⟨fun _ _ _ _ _ h => by simp [hitClient] at h, by decide, by decide, by decide, by decide⟩

/-- C17 (amended): a run of StoreAccountOFACSearch dereferences a nil pointer exactly
when the account is non-nil with a non-empty HolderName and the receiver is nil, or its
WatchmanClient is nil, or the search returns a nil error together with a nil result or
while Repo is nil. So a nil account is caught by the nil check before any field of it
is read, and a result that comes with an error is never read. In particular, under the
precondition that WatchmanClient.Search returns a non-nil result whenever it returns a
nil error, a call through a non-nil receiver with non-nil WatchmanClient and Repo never
dereferences a nil pointer on any account and requestID: every such run returns. -/
theorem StoreAccountOFACSearchNilable_nil_dereference {σ ρ : Type}
    (s : Option (AccountOfacSearcherNilable σ)) (timeNow : σ → Time)
    (account : Option (Account ρ)) (requestID : String) (w : σ) :
    ((StoreAccountOFACSearchNilable s timeNow account requestID w).outcome = .nilDereference ↔
      ∃ a, account = some a ∧ a.HolderName ≠ "" ∧
        (s = none ∨ ∃ fields, s = some fields ∧
          (fields.WatchmanClient = none ∨ ∃ client, fields.WatchmanClient = some client ∧
            ∃ sdn w1,
              client.Search (WithTimeout Context.TODO (10 * Second) (timeNow w))
                a.HolderName requestID w = ((sdn, none), w1) ∧
              (sdn = none ∨ fields.Repo = none)))) ∧
    (∀ repo client, s = some { Repo := some repo, WatchmanClient := some client } →
      (∀ ctx name rid v, (client.Search ctx name rid v).1.2 = none →
          (client.Search ctx name rid v).1.1 ≠ none) →
      (StoreAccountOFACSearchNilable s timeNow account requestID w).outcome ≠ .nilDereference ∧
      ∃ err, (StoreAccountOFACSearchNilable s timeNow account requestID w).outcome
        = .returned err) := by
  have hiff : (StoreAccountOFACSearchNilable s timeNow account requestID w).outcome
        = .nilDereference ↔
      ∃ a, account = some a ∧ a.HolderName ≠ "" ∧
        (s = none ∨ ∃ fields, s = some fields ∧
          (fields.WatchmanClient = none ∨ ∃ client, fields.WatchmanClient = some client ∧
            ∃ sdn w1,
              client.Search (WithTimeout Context.TODO (10 * Second) (timeNow w))
                a.HolderName requestID w = ((sdn, none), w1) ∧
              (sdn = none ∨ fields.Repo = none))) := by
    cases account with
    | none => simp [StoreAccountOFACSearchNilable]
    | some a =>
      by_cases hn : a.HolderName = ""
      · simp [StoreAccountOFACSearchNilable, hn]
      · cases s with
        | none => simp [StoreAccountOFACSearchNilable, hn]
        | some fields =>
          rcases fields with ⟨repo, client⟩
          cases client with
          | none => simp [StoreAccountOFACSearchNilable, hn]
          | some client =>
            rcases hs : client.Search (WithTimeout Context.TODO (10 * Second) (timeNow w))
                a.HolderName requestID w with ⟨⟨sdn, err⟩, w1⟩
            cases err with
            | some e => simp [StoreAccountOFACSearchNilable, hn, hs]
            | none =>
              cases sdn with
              | none => simp [StoreAccountOFACSearchNilable, hn, hs]
              | some d =>
                cases repo with
                | none => simp [StoreAccountOFACSearchNilable, hn, hs]
                | some repo =>
                  rcases hr : repo.SaveAccountOFACSearch a.AccountID
                      { EntityID := d.EntityID, SDNName := d.SdnName, SDNType := d.SdnType,
                        Match := d.Match, CreatedAt := timeNow w1 } w1 with ⟨e2, w2⟩
                  cases e2 <;> simp [StoreAccountOFACSearchNilable, hn, hs, hr]
  refine ⟨hiff, ?_⟩
  intro repo client hsome hpre
  have hno : (StoreAccountOFACSearchNilable s timeNow account requestID w).outcome
      ≠ .nilDereference := by
    intro h
    obtain ⟨a, _, _, hcase⟩ := hiff.mp h
    subst hsome
    rcases hcase with h0 | ⟨fields, hf, hcase⟩
    · cases h0
    · cases hf
      rcases hcase with h0 | ⟨c, hc, sdn, w1, hs, hcase⟩
      · cases h0
      · cases hc
        rcases hcase with h0 | h0
        · have := hpre (WithTimeout Context.TODO (10 * Second) (timeNow w)) a.HolderName
            requestID w
          rw [hs] at this
          exact this rfl h0
        · cases h0
  refine ⟨hno, ?_⟩
  cases hout : (StoreAccountOFACSearchNilable s timeNow account requestID w).outcome with
  | returned err => exact ⟨err, rfl⟩
  | nilDereference => exact absurd hout hno

/-- Witness of the amended C17: a non-nil receiver whose watchlist client always
returns a match and whose repository accepts every save. -/
theorem StoreAccountOFACSearchNilable_nil_dereference_witness :
    (∀ ctx name rid v, (hitClient.Search ctx name rid v).1.2 = none →
        (hitClient.Search ctx name rid v).1.1 ≠ none) ∧
    (StoreAccountOFACSearchNilable (some { Repo := some okRepo, WatchmanClient := some hitClient })
        tickClock (some janeAccount) "req-1" 5).outcome = .returned none ∧
    ((StoreAccountOFACSearchNilable (some { Repo := some okRepo, WatchmanClient := some hitClient })
        tickClock (some janeAccount) "req-1" 5).outcome ≠ .nilDereference ∧
      ∃ err, (StoreAccountOFACSearchNilable
          (some { Repo := some okRepo, WatchmanClient := some hitClient })
          tickClock (some janeAccount) "req-1" 5).outcome = .returned err) :=
  ⟨fun _ _ _ _ _ h => by simp [hitClient] at h, by decide,
   (StoreAccountOFACSearchNilable_nil_dereference
      (some { Repo := some okRepo, WatchmanClient := some hitClient })
      tickClock (some janeAccount) "req-1" 5).2 okRepo hitClient rfl
      (fun _ _ _ _ _ h => by simp [hitClient] at h)⟩

/-! ## The account repository: creation, status and listing -/

/-- The result of `createCustomerAccount` for a valid request, a keeper that encrypts the
number, an available store and no active account of the customer with the same
fingerprint. -/
theorem createCustomerAccount_eq (env : RepoEnv) (customerID userID : String)
    (req : createAccountRequest) (newID : String) (now : Time) (st : Store) (encrypted : String)
    (hc : customerID ≠ "") (hu : userID ≠ "")
    (hr : validRoutingNumber req.RoutingNumber = true)
    (henc : env.keeper.encrypt req.AccountNumber = some encrypted)
    (ha : st.available = true)
    (hnodup : ∀ r ∈ st.accounts, r.active = true → r.CustomerID = customerID →
        r.Fingerprint ≠ env.fingerprint req.AccountNumber req.RoutingNumber) :
    createCustomerAccount env customerID userID req newID now st =
      (.ok (newAccountRow env customerID userID req newID now encrypted),
       { accounts := st.accounts ++ [newAccountRow env customerID userID req newID now encrypted],
         searches := st.searches, available := st.available }) := by
  have hany : st.accounts.any (fun r => r.active && r.CustomerID == customerID &&
      r.Fingerprint == env.fingerprint req.AccountNumber req.RoutingNumber) = false := by
    rw [List.any_eq_false]
    intro r hmem
    by_cases hact : r.active = true
    · by_cases hcust : r.CustomerID = customerID
      · simp [hact, hcust, hnodup r hmem hact hcust]
      · simp [hcust]
    · simp only [Bool.not_eq_true] at hact
      simp [hact]
  simp [createCustomerAccount, hc, hu, hr, henc, ha, hany, newAccountRow]

/-- What a successful `createCustomerAccount` returned and stored. -/
theorem createCustomerAccount_inv (env : RepoEnv) (customerID userID : String)
    (req : createAccountRequest) (newID : String) (now : Time) (st st1 : Store) (acct : AccountRow)
    (h : createCustomerAccount env customerID userID req newID now st = (.ok acct, st1)) :
    ∃ encrypted, env.keeper.encrypt req.AccountNumber = some encrypted ∧
      acct = newAccountRow env customerID userID req newID now encrypted ∧
      st1 = { accounts := st.accounts ++ [acct], searches := st.searches,
              available := st.available } ∧
      st.available = true := by
  by_cases hcu : customerID = "" ∨ userID = ""
  · simp [createCustomerAccount, hcu] at h
  by_cases hr : validRoutingNumber req.RoutingNumber = false
  · simp [createCustomerAccount, hcu, hr] at h
  cases henc : env.keeper.encrypt req.AccountNumber with
  | none => simp [createCustomerAccount, hcu, hr, henc] at h
  | some encrypted =>
    by_cases hav : st.available = false
    · simp [createCustomerAccount, hcu, hr, henc, hav] at h
    by_cases hany : st.accounts.any (fun r => r.active && r.CustomerID == customerID &&
        r.Fingerprint == env.fingerprint req.AccountNumber req.RoutingNumber) = true
    · simp only [createCustomerAccount, hcu, hr, henc, hav, hany, if_true, if_false] at h
      simp at h
    · have hav2 : st.available = true := by simpa using hav
      simp only [createCustomerAccount, hcu, hr, henc, hav, hany, if_false] at h
      simp only [Bool.true_eq_false, Bool.false_eq_true, if_false, Prod.mk.injEq,
        Except.ok.injEq] at h
      obtain ⟨h1, h2⟩ := h
      subst h1
      exact ⟨encrypted, rfl, rfl, by rw [← h2, hav2], hav2⟩

/-- No row of a list that lacks an identifier is found under that identifier. -/
theorem find_fresh (accountID : String) (q : AccountRow → Bool) (l : List AccountRow)
    (hfresh : ∀ r ∈ l, r.AccountID ≠ accountID) :
    l.find? (fun r => q r && r.AccountID == accountID) = none := by
  rw [List.find?_eq_none]
  intro r hr
  simp [hfresh r hr]

/-- A status update leaves a list that lacks the identifier as it is. -/
theorem updateRow_fresh (accountID : String) (status : AccountStatus) (l : List AccountRow)
    (hfresh : ∀ r ∈ l, r.AccountID ≠ accountID) :
    l.map (updateRow accountID status) = l := by
  conv_rhs => rw [← List.map_id l]
  apply List.map_congr_left
  intro r hr
  simp [updateRow, hfresh r hr]

/-- The result of a legal `updateAccountStatus`. -/
theorem updateAccountStatus_eq (accountID : String) (status : AccountStatus) (st : Store)
    (r : AccountRow) (ha : st.available = true)
    (hfind : st.accounts.find? (fun r => r.active && r.AccountID == accountID) = some r)
    (hlegal : legalTransition r.Status status = true) :
    updateAccountStatus accountID status st =
      (none, { accounts := st.accounts.map (updateRow accountID status),
               searches := st.searches, available := st.available }) := by
  simp only [updateAccountStatus, ha, hfind, hlegal]
  rfl

/-- The result of an illegal `updateAccountStatus`. -/
theorem updateAccountStatus_illegal (accountID : String) (status : AccountStatus) (st : Store)
    (r : AccountRow) (ha : st.available = true)
    (hfind : st.accounts.find? (fun r => r.active && r.AccountID == accountID) = some r)
    (hillegal : legalTransition r.Status status = false) :
    updateAccountStatus accountID status st = (some .InvalidTransitionError, st) := by
  simp [updateAccountStatus, ha, hfind, hillegal]


/-! ## The account repository: uniqueness -/

/-- C11: in the repository of the spec, for an account newly created under a fresh
identifier (status None), updateAccountStatus to Validated (or to Rejected) succeeds and
a following getCustomerAccount reports that status; every later updateAccountStatus on
the account, whatever the new status, fails with InvalidTransitionError and leaves the
store, and so the status, as it was: Validated and Rejected are terminal. -/
theorem updateAccountStatus_terminal (env : RepoEnv) (customerID userID : String)
    (req : createAccountRequest) (newID : String) (now : Time) (st : Store) (encrypted : String)
    (first later : AccountStatus)
    (hc : customerID ≠ "") (hu : userID ≠ "")
    (hr : validRoutingNumber req.RoutingNumber = true)
    (henc : env.keeper.encrypt req.AccountNumber = some encrypted)
    (ha : st.available = true)
    (hnodup : ∀ r ∈ st.accounts, r.active = true → r.CustomerID = customerID →
        r.Fingerprint ≠ env.fingerprint req.AccountNumber req.RoutingNumber)
    (hfresh : ∀ r ∈ st.accounts, r.AccountID ≠ newID)
    (hfirst : first = .Validated ∨ first = .Rejected) :
    ∃ acct st1 st2,
      createCustomerAccount env customerID userID req newID now st = (.ok acct, st1) ∧
      acct.AccountID = newID ∧ acct.Status = .None ∧
      updateAccountStatus newID first st1 = (none, st2) ∧
      (∃ got, getCustomerAccount customerID newID st2 = .ok got ∧
        got.AccountID = newID ∧ got.Status = first) ∧
      updateAccountStatus newID later st2 = (some .InvalidTransitionError, st2) := by
  have hcreate := createCustomerAccount_eq env customerID userID req newID now st encrypted
    hc hu hr henc ha hnodup
  have hnone : st.accounts.find? (fun r => r.active && r.AccountID == newID) = none :=
    find_fresh newID AccountRow.active st.accounts hfresh
  have hfind1 : (st.accounts ++ [newAccountRow env customerID userID req newID now encrypted]).find?
      (fun r => r.active && r.AccountID == newID)
        = some (newAccountRow env customerID userID req newID now encrypted) := by
    rw [List.find?_append, hnone]
    simp [newAccountRow, AccountRow.active]
  have hlegal : legalTransition (newAccountRow env customerID userID req newID now encrypted).Status
      first = true := by
    rcases hfirst with h | h <;> subst h <;> rfl
  have hupd := updateAccountStatus_eq newID first
    { accounts := st.accounts ++ [newAccountRow env customerID userID req newID now encrypted],
      searches := st.searches, available := st.available }
    _ ha hfind1 hlegal
  have hrow : updateRow newID first (newAccountRow env customerID userID req newID now encrypted)
      = { newAccountRow env customerID userID req newID now encrypted with Status := first } := by
    simp [updateRow, newAccountRow, AccountRow.active]
  have hmap : (st.accounts ++ [newAccountRow env customerID userID req newID now encrypted]).map
      (updateRow newID first)
        = st.accounts ++
          [{ newAccountRow env customerID userID req newID now encrypted with Status := first }] := by
    rw [List.map_append, updateRow_fresh newID first st.accounts hfresh, List.map_singleton, hrow]
  rw [hmap] at hupd
  have hfind2 : (st.accounts ++
      [{ newAccountRow env customerID userID req newID now encrypted with Status := first }]).find?
      (fun r => r.active && r.AccountID == newID)
        = some { newAccountRow env customerID userID req newID now encrypted with Status := first } := by
    rw [List.find?_append, hnone]
    simp [newAccountRow, AccountRow.active]
  have hget : (st.accounts ++
      [{ newAccountRow env customerID userID req newID now encrypted with Status := first }]).find?
      (fun r => r.active && r.CustomerID == customerID && r.AccountID == newID)
        = some { newAccountRow env customerID userID req newID now encrypted with Status := first } := by
    rw [List.find?_append,
      find_fresh newID (fun r => r.active && r.CustomerID == customerID) st.accounts hfresh]
    simp [newAccountRow, AccountRow.active]
  have hillegal : legalTransition
      ({ newAccountRow env customerID userID req newID now encrypted with Status := first } :
        AccountRow).Status later = false := by
    rcases hfirst with h | h <;> subst h <;> cases later <;> rfl
  refine ⟨_, _, _, hcreate, rfl, rfl, hupd,
    ⟨{ newAccountRow env customerID userID req newID now encrypted with Status := first },
      ?_, rfl, rfl⟩, ?_⟩
  · simp only [getCustomerAccount, ha, hget]
    rfl
  · exact updateAccountStatus_illegal newID later _ _ ha hfind2 hillegal

/-- Witness of C11: the request of `TestRepository__updateAccountStatus` in an empty
store, set to Validated and then to Rejected. -/
theorem updateAccountStatus_terminal_witness :
    ("cust-1" ≠ "" ∧ "user-1" ≠ "" ∧ validRoutingNumber testRequest.RoutingNumber = true ∧
      testEnv.keeper.encrypt testRequest.AccountNumber = some "enc:123" ∧
      Store.empty.available = true) ∧
    ∃ acct st1 st2,
      createCustomerAccount testEnv "cust-1" "user-1" testRequest "acct-1" 10 Store.empty
        = (.ok acct, st1) ∧
      acct.AccountID = "acct-1" ∧ acct.Status = .None ∧
      updateAccountStatus "acct-1" .Validated st1 = (none, st2) ∧
      (∃ got, getCustomerAccount "cust-1" "acct-1" st2 = .ok got ∧
        got.AccountID = "acct-1" ∧ got.Status = .Validated) ∧
      updateAccountStatus "acct-1" .Rejected st2 = (some .InvalidTransitionError, st2) :=
  ⟨by decide,
   updateAccountStatus_terminal testEnv "cust-1" "user-1" testRequest "acct-1" 10 Store.empty
     "enc:123" .Validated .Rejected (by decide) (by decide) (by decide) (by decide) rfl
     (fun r hr => absurd hr (List.not_mem_nil r)) (fun r hr => absurd hr (List.not_mem_nil r))
     (Or.inl rfl)⟩


/-- C12: in the repository of the spec, on an available store, getCustomerAccounts
returns without error a list that holds exactly the rows of the customer that are not
deactivated, each as often as it is stored, in ascending order of CreatedAt; it is the
empty list when the customer has no active account, and after one successful
createCustomerAccount for such a customer it is the one-element list of the account the
create returned, whose AccountID is the identifier drawn by the create. -/
theorem getCustomerAccounts_active_sorted (customerID : String) (st : Store)
    (ha : st.available = true) :
    ∃ l, getCustomerAccounts customerID st = .ok l ∧
      (∀ r, r ∈ l ↔ r ∈ st.accounts ∧ r.DeactivatedAt = none ∧ r.CustomerID = customerID) ∧
      l.Perm (st.accounts.filter (fun r => r.active && r.CustomerID == customerID)) ∧
      l.Sorted (fun a b => a.CreatedAt ≤ b.CreatedAt) ∧
      ((∀ r ∈ st.accounts, r.CustomerID = customerID → r.active = false) → l = []) ∧
      (∀ (env : RepoEnv) (userID : String) (req : createAccountRequest) (newID : String)
          (now : Time) (acct : AccountRow) (st1 : Store),
        (∀ r ∈ st.accounts, r.CustomerID = customerID → r.active = false) →
        createCustomerAccount env customerID userID req newID now st = (.ok acct, st1) →
        acct.AccountID = newID ∧ getCustomerAccounts customerID st1 = .ok [acct]) := by
  haveI : IsTotal AccountRow (fun a b => a.CreatedAt ≤ b.CreatedAt) :=
    ⟨fun a b => le_total a.CreatedAt b.CreatedAt⟩
  haveI : IsTrans AccountRow (fun a b => a.CreatedAt ≤ b.CreatedAt) :=
    ⟨fun _ _ _ h1 h2 => le_trans h1 h2⟩
  have hempty : (∀ r ∈ st.accounts, r.CustomerID = customerID → r.active = false) →
      st.accounts.filter (fun r => r.active && r.CustomerID == customerID) = [] := by
    intro hnone
    rw [List.filter_eq_nil_iff]
    intro r hmem
    by_cases hcust : r.CustomerID = customerID
    · simp [hnone r hmem hcust]
    · simp [hcust]
  refine ⟨(st.accounts.filter (fun r => r.active && r.CustomerID == customerID)).insertionSort
      (fun a b => a.CreatedAt ≤ b.CreatedAt), by simp [getCustomerAccounts, ha], ?_,
      List.perm_insertionSort _ _, List.sorted_insertionSort _ _, ?_, ?_⟩
  · intro r
    rw [List.mem_insertionSort, List.mem_filter]
    simp [AccountRow.active, and_assoc]
  · intro hnone
    rw [hempty hnone]
    rfl
  · intro env userID req newID now acct st1 hnone hcreate
    obtain ⟨encrypted, _, hacct, hst1, _⟩ :=
      createCustomerAccount_inv env customerID userID req newID now st st1 acct hcreate
    have hactive : (acct.active && acct.CustomerID == customerID) = true := by
      rw [hacct]
      simp [newAccountRow, AccountRow.active]
    refine ⟨by rw [hacct]; rfl, ?_⟩
    rw [hst1]
    simp only [getCustomerAccounts, ha, List.filter_append, hempty hnone]
    simp [List.filter_cons, hactive]

/-- Witness of C12 on a store with two active accounts of the customer stored out of
creation order, a deactivated one and one of another customer: the list is the two
active accounts, the earlier first. The empty store and the store after the create of
`TestRepository` are evaluated alongside. -/
theorem getCustomerAccounts_active_sorted_witness :
    mixedStore.available = true ∧
    getCustomerAccounts "cust-1" mixedStore = .ok [testRow, laterRow] ∧
    getCustomerAccounts "cust-1" Store.empty = .ok [] ∧
    createCustomerAccount testEnv "cust-1" "user-1" testRequest "acct-1" 10 Store.empty
      = (.ok testRow, { accounts := [testRow], searches := [], available := true }) ∧
    getCustomerAccounts "cust-1" { accounts := [testRow], searches := [], available := true }
      = .ok [testRow] ∧
    ∃ l, getCustomerAccounts "cust-1" mixedStore = .ok l ∧
      (∀ r, r ∈ l ↔ r ∈ mixedStore.accounts ∧ r.DeactivatedAt = none ∧ r.CustomerID = "cust-1") ∧
      l.Perm (mixedStore.accounts.filter (fun r => r.active && r.CustomerID == "cust-1")) ∧
      l.Sorted (fun a b => a.CreatedAt ≤ b.CreatedAt) ∧
      ((∀ r ∈ mixedStore.accounts, r.CustomerID = "cust-1" → r.active = false) → l = []) ∧
      (∀ (env : RepoEnv) (userID : String) (req : createAccountRequest) (newID : String)
          (now : Time) (acct : AccountRow) (st1 : Store),
        (∀ r ∈ mixedStore.accounts, r.CustomerID = "cust-1" → r.active = false) →
        createCustomerAccount env "cust-1" userID req newID now mixedStore = (.ok acct, st1) →
        acct.AccountID = newID ∧ getCustomerAccounts "cust-1" st1 = .ok [acct]) :=
  ⟨rfl, by decide, by decide, by decide, by decide,
   getCustomerAccounts_active_sorted "cust-1" mixedStore rfl⟩


/-! ## The account repository: facts about deactivation -/

/-- Deactivating a row keeps its identifier. -/
theorem deactivateRow_AccountID (accountID : String) (now : Time) (x : AccountRow) :
    (deactivateRow accountID now x).AccountID = x.AccountID := by
  unfold deactivateRow
  split <;> rfl

/-- After the deactivation of an account, a row with its identifier is not active. -/
theorem deactivateRow_inactive (accountID : String) (now : Time) (x : AccountRow)
    (h : (deactivateRow accountID now x).AccountID = accountID) :
    (deactivateRow accountID now x).active = false := by
  rw [deactivateRow_AccountID] at h
  unfold deactivateRow
  by_cases hact : x.active = true
  · have hnone : x.DeactivatedAt = none := by simpa [AccountRow.active] using hact
    simp [AccountRow.active, hnone, h]
  · simp only [Bool.not_eq_true] at hact
    simp [hact]

/-- Deactivating an account leaves the rows that are already inactive or belong to
another account as they are. -/
theorem deactivateRow_fixed (accountID : String) (now : Time) (x : AccountRow)
    (h : x.AccountID = accountID → x.active = false) :
    deactivateRow accountID now x = x := by
  unfold deactivateRow
  by_cases hid : x.AccountID = accountID
  · simp [h hid]
  · simp [hid]

/-- The result of `deactivateCustomerAccount` on an available store that holds the
account. -/
theorem deactivateCustomerAccount_eq (accountID : String) (now : Time) (st : Store)
    (ha : st.available = true) (hex : ∃ r ∈ st.accounts, r.AccountID = accountID) :
    deactivateCustomerAccount accountID now st =
      (none, { accounts := st.accounts.map (deactivateRow accountID now),
               searches := st.searches, available := st.available }) := by
  obtain ⟨r, hr, hid⟩ := hex
  have hany : st.accounts.any (fun r => r.AccountID == accountID) = true := by
    rw [List.any_eq_true]
    exact ⟨r, hr, by simp [hid]⟩
  simp only [deactivateCustomerAccount, ha, hany]
  rfl

/-- C15: in the repository of the spec, on an available store that holds the account,
deactivateCustomerAccount succeeds, a second deactivateCustomerAccount of the same
account (at any later clock reading) succeeds as well, and the store after the second
call is the store after the first. -/
theorem deactivateCustomerAccount_idempotent (accountID : String) (t1 t2 : Time) (st : Store)
    (ha : st.available = true) (hex : ∃ r ∈ st.accounts, r.AccountID = accountID) :
    ∃ st1, deactivateCustomerAccount accountID t1 st = (none, st1) ∧
      deactivateCustomerAccount accountID t2 st1 = (none, st1) := by
  refine ⟨_, deactivateCustomerAccount_eq accountID t1 st ha hex, ?_⟩
  have hex1 : ∃ r ∈ st.accounts.map (deactivateRow accountID t1), r.AccountID = accountID := by
    obtain ⟨r, hr, hid⟩ := hex
    exact ⟨deactivateRow accountID t1 r, List.mem_map_of_mem _ hr,
      by rw [deactivateRow_AccountID]; exact hid⟩
  rw [deactivateCustomerAccount_eq accountID t2
    { accounts := st.accounts.map (deactivateRow accountID t1), searches := st.searches,
      available := st.available } ha hex1]
  have hmap : (st.accounts.map (deactivateRow accountID t1)).map (deactivateRow accountID t2)
      = st.accounts.map (deactivateRow accountID t1) := by
    rw [List.map_map]
    apply List.map_congr_left
    intro x _
    exact deactivateRow_fixed accountID t2 _ (deactivateRow_inactive accountID t1 x)
  simp only [hmap]

/-- Witness of C15 on a store that holds one account. -/
theorem deactivateCustomerAccount_idempotent_witness :
    (screenedStore.available = true ∧ ∃ r ∈ screenedStore.accounts, r.AccountID = "acct-1") ∧
    ∃ st1, deactivateCustomerAccount "acct-1" 20 screenedStore = (none, st1) ∧
      deactivateCustomerAccount "acct-1" 30 st1 = (none, st1) :=
  ⟨⟨rfl, testRow, List.mem_singleton.mpr rfl, rfl⟩,
   deactivateCustomerAccount_idempotent "acct-1" 20 30 screenedStore rfl
     ⟨testRow, List.mem_singleton.mpr rfl, rfl⟩⟩


/-- C13: in the repository of the spec, on an available store that holds the account,
deactivateCustomerAccount succeeds; afterwards getCustomerAccount for the account
returns NotFound for every customer, getCustomerAccounts of every customer lists no
account with that identifier, the search results stored for the account and its
authoritative result are read back as before, and the account's row is still stored,
marked deactivated: no row was removed. -/
theorem deactivateCustomerAccount_soft_delete (accountID : String) (now : Time) (st : Store)
    (ha : st.available = true) (hex : ∃ r ∈ st.accounts, r.AccountID = accountID) :
    ∃ st1, deactivateCustomerAccount accountID now st = (none, st1) ∧
      (∀ customerID, getCustomerAccount customerID accountID st1 = .error .NotFound) ∧
      (∀ customerID, ∃ l, getCustomerAccounts customerID st1 = .ok l ∧
          ∀ r ∈ l, r.AccountID ≠ accountID) ∧
      getAccountOFACSearches accountID st1 = getAccountOFACSearches accountID st ∧
      getLatestAccountOFACSearch accountID st1 = getLatestAccountOFACSearch accountID st ∧
      st1.accounts.map AccountRow.AccountID = st.accounts.map AccountRow.AccountID ∧
      (∃ r ∈ st1.accounts, r.AccountID = accountID ∧ r.active = false) := by
  refine ⟨_, deactivateCustomerAccount_eq accountID now st ha hex, ?_, ?_, rfl, rfl, ?_, ?_⟩
  · intro customerID
    have hfind : (st.accounts.map (deactivateRow accountID now)).find?
        (fun r => r.active && r.CustomerID == customerID && r.AccountID == accountID) = none := by
      rw [List.find?_eq_none]
      intro r hr
      obtain ⟨x, _, rfl⟩ := List.mem_map.mp hr
      by_cases hid : (deactivateRow accountID now x).AccountID = accountID
      · simp [deactivateRow_inactive accountID now x hid]
      · simp [hid]
    simp [getCustomerAccount, ha, hfind]
  · intro customerID
    refine ⟨((st.accounts.map (deactivateRow accountID now)).filter
        (fun r => r.active && r.CustomerID == customerID)).insertionSort
        (fun a b => a.CreatedAt ≤ b.CreatedAt), by simp [getCustomerAccounts, ha], ?_⟩
    intro r hr hid
    have hmem := (List.perm_insertionSort _ _).subset hr
    obtain ⟨hin, hp⟩ := List.mem_filter.mp hmem
    obtain ⟨x, _, rfl⟩ := List.mem_map.mp hin
    simp [deactivateRow_inactive accountID now x hid] at hp
  · simp [List.map_map, Function.comp_def, deactivateRow_AccountID]
  · obtain ⟨r, hr, hid⟩ := hex
    refine ⟨deactivateRow accountID now r, List.mem_map_of_mem _ hr, ?_, ?_⟩
    · rw [deactivateRow_AccountID]; exact hid
    · exact deactivateRow_inactive accountID now r (by rw [deactivateRow_AccountID]; exact hid)

/-- Witness of C13 on a store that holds one account with one search result. -/
theorem deactivateCustomerAccount_soft_delete_witness :
    (screenedStore.available = true ∧ ∃ r ∈ screenedStore.accounts, r.AccountID = "acct-1") ∧
    getAccountOFACSearches "acct-1" screenedStore =
      [{ EntityID := "306", SDNName := "BANCO NACIONAL DE CUBA", SDNType := "entity",
         Match := 1065353216, CreatedAt := 12 }] ∧
    ∃ st1, deactivateCustomerAccount "acct-1" 20 screenedStore = (none, st1) ∧
      (∀ customerID, getCustomerAccount customerID "acct-1" st1 = .error .NotFound) ∧
      (∀ customerID, ∃ l, getCustomerAccounts customerID st1 = .ok l ∧
          ∀ r ∈ l, r.AccountID ≠ "acct-1") ∧
      getAccountOFACSearches "acct-1" st1 = getAccountOFACSearches "acct-1" screenedStore ∧
      getLatestAccountOFACSearch "acct-1" st1 = getLatestAccountOFACSearch "acct-1" screenedStore ∧
      st1.accounts.map AccountRow.AccountID = screenedStore.accounts.map AccountRow.AccountID ∧
      (∃ r ∈ st1.accounts, r.AccountID = "acct-1" ∧ r.active = false) :=
  ⟨⟨rfl, testRow, List.mem_singleton.mpr rfl, rfl⟩, by decide,
   deactivateCustomerAccount_soft_delete "acct-1" 20 screenedStore rfl
     ⟨testRow, List.mem_singleton.mpr rfl, rfl⟩⟩


/-! ## The account repository: the encrypted account number -/

/-- The test keeper decrypts what it encrypted. -/
theorem testKeeper_roundtrip (text cipher : String)
    (h : testKeeper.encrypt text = some cipher) : testKeeper.decrypt cipher = some text := by
  simp only [testKeeper, Option.some.injEq] at h
  subst h
  simp [testKeeper, String.data_append]

/-- The test keeper never produces an empty ciphertext. -/
theorem testKeeper_nonempty (text cipher : String)
    (h : testKeeper.encrypt text = some cipher) : cipher ≠ "" := by
  simp only [testKeeper, Option.some.injEq] at h
  subst h
  intro hempty
  have hlen := congrArg String.length hempty
  rw [String.length_append] at hlen
  have hfour : ("enc:" : String).length = 4 := by decide
  have hzero : ("" : String).length = 0 := by decide
  omega

/-- C14: in the repository of the spec, with a keeper that decrypts what it encrypted
and never produces an empty ciphertext, creating an account from a valid request under
a fresh identifier succeeds, the stored encrypted number is read back without error, is
the non-empty ciphertext the keeper produced for the request's account number, and
decrypting it with the same keeper returns exactly the original plaintext account
number. -/
theorem createCustomerAccount_number_roundtrip (env : RepoEnv) (customerID userID : String)
    (req : createAccountRequest) (newID : String) (now : Time) (st : Store)
    (hc : customerID ≠ "") (hu : userID ≠ "")
    (hr : validRoutingNumber req.RoutingNumber = true)
    (hk : (env.keeper.encrypt req.AccountNumber).isSome = true)
    (ha : st.available = true)
    (hnodup : ∀ r ∈ st.accounts, r.active = true → r.CustomerID = customerID →
        r.Fingerprint ≠ env.fingerprint req.AccountNumber req.RoutingNumber)
    (hfresh : ∀ r ∈ st.accounts, r.AccountID ≠ newID)
    (hround : ∀ text cipher, env.keeper.encrypt text = some cipher →
        env.keeper.decrypt cipher = some text)
    (hcipher : ∀ text cipher, env.keeper.encrypt text = some cipher → cipher ≠ "") :
    ∃ acct st1 stored,
      createCustomerAccount env customerID userID req newID now st = (.ok acct, st1) ∧
      getEncryptedAccountNumber customerID acct.AccountID st1 = .ok stored ∧
      stored ≠ "" ∧
      env.keeper.encrypt req.AccountNumber = some stored ∧
      env.keeper.decrypt stored = some req.AccountNumber ∧
      getDecryptedAccountNumber env customerID acct.AccountID st1 = .ok req.AccountNumber := by
  obtain ⟨encrypted, henc⟩ := Option.isSome_iff_exists.mp hk
  have hcreate := createCustomerAccount_eq env customerID userID req newID now st encrypted
    hc hu hr henc ha hnodup
  have hget : (st.accounts ++ [newAccountRow env customerID userID req newID now encrypted]).find?
      (fun r => r.active && r.CustomerID == customerID && r.AccountID == newID)
        = some (newAccountRow env customerID userID req newID now encrypted) := by
    rw [List.find?_append,
      find_fresh newID (fun r => r.active && r.CustomerID == customerID) st.accounts hfresh]
    simp [newAccountRow, AccountRow.active]
  have hread : getEncryptedAccountNumber customerID newID
      { accounts := st.accounts ++ [newAccountRow env customerID userID req newID now encrypted],
        searches := st.searches, available := st.available } = .ok encrypted := by
    simp only [getEncryptedAccountNumber, getCustomerAccount, ha, hget]
    rfl
  refine ⟨_, _, encrypted, hcreate, hread, hcipher _ _ henc, henc, hround _ _ henc, ?_⟩
  show getDecryptedAccountNumber env customerID newID _ = _
  simp only [getDecryptedAccountNumber, hread, hround _ _ henc]

/-- Witness of C14: the request of `TestRepository__getEncryptedAccountNumber` with the
test keeper, in an empty store. -/
theorem createCustomerAccount_number_roundtrip_witness :
    ("cust-1" ≠ "" ∧ "user-1" ≠ "" ∧ validRoutingNumber testRequest.RoutingNumber = true ∧
      (testEnv.keeper.encrypt testRequest.AccountNumber).isSome = true ∧
      Store.empty.available = true) ∧
    getEncryptedAccountNumber "cust-1" "acct-1"
      (createCustomerAccount testEnv "cust-1" "user-1" testRequest "acct-1" 10 Store.empty).2
      = .ok "enc:123" ∧
    ∃ acct st1 stored,
      createCustomerAccount testEnv "cust-1" "user-1" testRequest "acct-1" 10 Store.empty
        = (.ok acct, st1) ∧
      getEncryptedAccountNumber "cust-1" acct.AccountID st1 = .ok stored ∧
      stored ≠ "" ∧
      testEnv.keeper.encrypt testRequest.AccountNumber = some stored ∧
      testEnv.keeper.decrypt stored = some testRequest.AccountNumber ∧
      getDecryptedAccountNumber testEnv "cust-1" acct.AccountID st1 = .ok testRequest.AccountNumber :=
  ⟨by decide, by decide,
   createCustomerAccount_number_roundtrip testEnv "cust-1" "user-1" testRequest "acct-1" 10
     Store.empty (by decide) (by decide) (by decide) (by decide) rfl
     (fun r hr => absurd hr (List.not_mem_nil r)) (fun r hr => absurd hr (List.not_mem_nil r))
     testKeeper_roundtrip testKeeper_nonempty⟩

end Customers
